import Mathlib

/-!
Verification of the material/texture layer of `mmd_tools`
(`mmd_tools/core/material.py`, class `FnMaterial`).

The Blender scene store is shallowly embedded as a `State` holding the
process-wide collections `bpy.data.materials`, `bpy.data.textures` and
`bpy.data.images`.  Textures and images are identified by numeric keys
(datablock identity); slots and textures hold keys, so aliasing through
the shared store is represented faithfully.  Host functions that touch
the filesystem or Blender path utilities (`os.path.samefile`,
`bpy.data.images.load`, `bpy.path.resolve_ncase`, ...) are parameters of
an `Env` record.
-/

set_option autoImplicit false

namespace MMD

/-- A `bpy.types.Image` datablock (the fields this layer touches). -/
structure Image where
  name : String
  source : String
  filepath : String
  use_alpha : Bool
  width : Nat
  height : Nat
deriving DecidableEq, Repr

/-- A `bpy.types.Texture` datablock; `image` is a key into the image store. -/
structure Texture where
  name : String
  ttype : String
  image : Option Nat
  use_alpha : Bool
  extension : String
deriving DecidableEq, Repr

/-- A `bpy.types.MaterialTextureSlot`; `texture` is a key into the texture store. -/
structure TextureSlot where
  use : Bool
  use_map_alpha : Bool
  texture_coords : String
  blend_type : String
  texture : Option Nat
deriving DecidableEq, Repr

/-- The `mmd_material` custom-properties record attached to each material. -/
structure MMDMaterial where
  material_id : Int
  is_shared_toon_texture : Bool
  shared_toon_texture : Nat
  toon_texture : String
  enabled_self_shadow_map : Bool
  enabled_self_shadow : Bool
  sphere_texture_type : Int
deriving DecidableEq, Repr

/-- A `bpy.types.Material`: its `mmd_material` record, the texture-slot
array (indices 0,1,2 are used), and the shadow flags this layer sets.
`use_cast_shadows` is `none` on hosts where the attribute does not exist
(Blender < 2.71), mirroring the `hasattr` check in the source. -/
structure Material where
  mmd_material : MMDMaterial
  texture_slots : List (Option TextureSlot)
  use_cast_buffer_shadows : Bool
  use_cast_shadows : Option Bool
  use_shadows : Bool
  use_transparent_shadows : Bool
deriving DecidableEq, Repr

/-- The scene store: `bpy.data.materials` / `.textures` / `.images`,
fresh-key counters for datablock creation, and the warning log. -/
structure State where
  materials : List Material
  textures : List (Nat × Texture)
  images : List (Nat × Image)
  nextTexId : Nat
  nextImgId : Nat
  log : List String
deriving DecidableEq, Repr

/-- Host/filesystem services used by the source module. -/
structure Env where
  /-- `Image.filepath_from_user()`: the stored filepath in user form. -/
  fromUser : String → String
  /-- `os.stat` identity for `os.path.samefile`; `none` means stat raises. -/
  inode : String → Option Nat
  /-- whether `bpy.data.images.load` succeeds on this path. -/
  loadable : String → Bool
  /-- dimensions of a successfully loaded image file. -/
  imgWidth : String → Nat
  imgHeight : String → Nat
  /-- `os.path.basename`. -/
  baseName : String → String
  /-- `bpy.path.display_name_from_filepath`. -/
  displayName : String → String
  /-- `bpy.path.resolve_ncase`. -/
  resolveNCase : String → String
  /-- `os.path.join`. -/
  joinPath : String → String → String
  /-- `mmd_tools.addon_preferences('shared_toon_folder', '')`. -/
  sharedToonFolder : String

/-- First value stored under key `k` in an association list. -/
def assocFind {α : Type} (l : List (Nat × α)) (k : Nat) : Option α :=
  match l with
  | [] => none
  | e :: rest => if e.1 = k then some e.2 else assocFind rest k

def getTexture (s : State) (tid : Nat) : Option Texture :=
  assocFind s.textures tid

def getImage (s : State) (iid : Nat) : Option Image :=
  assocFind s.images iid

/-- In-place mutation of the texture datablock with key `tid`
(`tex.field = v` on a shared object). -/
def updateTexture (s : State) (tid : Nat) (f : Texture → Texture) : State :=
  { s with textures := s.textures.map (fun e => if e.1 = tid then (e.1, f e.2) else e) }

/-- In-place mutation of the image datablock with key `iid`. -/
def updateImage (s : State) (iid : Nat) (f : Image → Image) : State :=
  { s with images := s.images.map (fun e => if e.1 = iid then (e.1, f e.2) else e) }

/-- `bpy.data.textures.remove(tex)`. -/
def eraseTexture (s : State) (tid : Nat) : State :=
  { s with textures := s.textures.filter (fun e => e.1 != tid) }

/-- `bpy.data.images.remove(img)`. -/
def eraseImage (s : State) (iid : Nat) : State :=
  { s with images := s.images.filter (fun e => e.1 != iid) }

def setMaterial (s : State) (mi : Nat) (m : Material) : State :=
  { s with materials := s.materials.set mi m }

def updateMaterial (s : State) (mi : Nat) (f : Material → Material) : State :=
  match s.materials[mi]? with
  | some m => setMaterial s mi (f m)
  | none => s

/-- `material.texture_slots[k]` (may be `None`). -/
def slotGet (m : Material) (k : Nat) : Option TextureSlot :=
  (m.texture_slots[k]?).getD none

def slotSet (m : Material) (k : Nat) (sl : Option TextureSlot) : Material :=
  { m with texture_slots := m.texture_slots.set k sl }

def getSlot (s : State) (mi k : Nat) : Option TextureSlot :=
  (s.materials[mi]?).bind (fun m => slotGet m k)

def setSlot (s : State) (mi k : Nat) (sl : Option TextureSlot) : State :=
  updateMaterial s mi (fun m => slotSet m k sl)

/-- Mutate the slot at index `k` of material `mi`, when it exists. -/
def updateSlot (s : State) (mi k : Nat) (f : TextureSlot → TextureSlot) : State :=
  updateMaterial s mi (fun m =>
    match slotGet m k with
    | some sl => slotSet m k (some (f sl))
    | none => m)

/-- The texture key held by slot `k` of material `mi`, if any. -/
def slotTexture (s : State) (mi k : Nat) : Option Nat :=
  (getSlot s mi k).bind (fun sl => sl.texture)

/-- Does this (optional) slot reference texture `tid`? -/
def refsTex (osl : Option TextureSlot) (tid : Nat) : Bool :=
  match osl with
  | some sl => sl.texture == some tid
  | none => false

/-- `tex.users`: the number of texture slots (across every material)
referencing the texture with key `tid`. -/
def texUsers (s : State) (tid : Nat) : Nat :=
  (s.materials.map (fun m => m.texture_slots.countP (fun osl => refsTex osl tid))).sum

/-- `img.users`: the number of textures referencing the image with key `iid`. -/
def imgUsers (s : State) (iid : Nat) : Nat :=
  s.textures.countP (fun e => e.2.image == some iid)

/-- Slot indices used by `FnMaterial`. -/
def BASE_TEX_SLOT : Nat := 0
def TOON_TEX_SLOT : Nat := 1
def SPHERE_TEX_SLOT : Nat := 2

/-- `FnMaterial.__same_image_file`.  True when `image` is file-backed and
its user filepath string-equals `filepath`, or `os.path.samefile` says the
two paths are the same entity; a raised `OSError` (a path that cannot be
stat-ed) is swallowed and counts as not-same. -/
def same_image_file (env : Env) (image : Option Image) (filepath : String) : Bool :=
  match image with
  | some img =>
    if img.source == "FILE" then
      let img_filepath := env.fromUser img.filepath
      if img_filepath == filepath then true
      else
        match env.inode img_filepath, env.inode filepath with
        | some a, some b => a == b
        | _, _ => false
    else false
  | none => false

/-- The scan in `__load_image`: first image in the store matching
`same_image_file`, returned as the (key, datablock) entry. -/
def findImage (env : Env) (l : List (Nat × Image)) (p : String) : Option (Nat × Image) :=
  match l with
  | [] => none
  | e :: rest => if same_image_file env (some e.2) p then some e else findImage env rest p

/-- The warning emitted by `__load_image` on load failure. -/
def loadFailMsg (p : String) : String :=
  "Cannot create a texture for " ++ p ++ ". No such file."

/-- `FnMaterial.__load_image`: dedup scan, then `bpy.data.images.load`,
falling back to a 1x1 placeholder (source `FILE`, filepath kept) with one
warning line when the load raises.  Returns the key of the image. -/
def load_image (env : Env) (s : State) (p : String) : Nat × State :=
  match findImage env s.images p with
  | some e => (e.1, s)
  | none =>
    if env.loadable p then
      let img : Image :=
        { name := env.baseName p, source := "FILE", filepath := p,
          use_alpha := true, width := env.imgWidth p, height := env.imgHeight p }
      (s.nextImgId,
        { s with images := s.images ++ [(s.nextImgId, img)], nextImgId := s.nextImgId + 1 })
    else
      let img : Image :=
        { name := env.baseName p, source := "FILE", filepath := p,
          use_alpha := true, width := 1, height := 1 }
      (s.nextImgId,
        { s with images := s.images ++ [(s.nextImgId, img)], nextImgId := s.nextImgId + 1,
                 log := s.log ++ [loadFailMsg p] })

/-- The scan in `__load_texture`: does texture `t` pass
`t.type == 'IMAGE' and self.__same_image_file(t.image, filepath)`? -/
def texMatch (env : Env) (imgs : List (Nat × Image)) (t : Texture) (p : String) : Bool :=
  t.ttype == "IMAGE" && same_image_file env (t.image.bind (fun j => assocFind imgs j)) p

def findTexture (env : Env) (imgs : List (Nat × Image)) (l : List (Nat × Texture))
    (p : String) : Option (Nat × Texture) :=
  match l with
  | [] => none
  | e :: rest => if texMatch env imgs e.2 p then some e else findTexture env imgs rest p

/-- `FnMaterial.__load_texture`: dedup scan over image-type textures, else
`bpy.data.textures.new` followed by `tex.image = self.__load_image(filepath)`.
Returns the key of the texture. -/
def load_texture (env : Env) (s : State) (p : String) : Nat × State :=
  match findTexture env s.images s.textures p with
  | some e => (e.1, s)
  | none =>
    let tid := s.nextTexId
    let tex0 : Texture :=
      { name := env.displayName p, ttype := "IMAGE", image := none,
        use_alpha := true, extension := "REPEAT" }
    let sA := { s with textures := s.textures ++ [(tid, tex0)], nextTexId := tid + 1 }
    let r := load_image env sA p
    (tid, updateTexture r.2 tid (fun t => { t with image := some r.1 }))

/-- A slot as handed back by `texture_slots.create(index)`, before the
source sets any field. -/
def newSlot : TextureSlot :=
  { use := true, use_map_alpha := false, texture_coords := "GLOBAL",
    blend_type := "MIX", texture := none }

/-- `FnMaterial.create_texture`: (re)create slot BASE with
`use_map_alpha=True`, UV coordinates, MULTIPLY blend, then attach
`__load_texture(filepath)`. -/
def create_texture (env : Env) (s : State) (mi : Nat) (filepath : String) : State :=
  let s1 := setSlot s mi BASE_TEX_SLOT
    (some { newSlot with use_map_alpha := true, texture_coords := "UV", blend_type := "MULTIPLY" })
  let r := load_texture env s1 filepath
  updateSlot r.2 mi BASE_TEX_SLOT (fun sl => { sl with texture := some r.1 })

/-- `FnMaterial.remove_texture`: clear the slot, then reference-counted
cascade — remove the texture when no slot references it any more, after
detaching its image, and then remove the image when no texture references
it any more. -/
def remove_texture (s : State) (mi : Nat) (index : Nat) : State :=
  match getSlot s mi index with
  | none => s
  | some texture_slot =>
    let s1 := setSlot s mi index none
    match texture_slot.texture with
    | none => s1
    | some tid =>
      if texUsers s1 tid < 1 then
        let img := (getTexture s1 tid).bind (fun t => t.image)
        let s2 := updateTexture s1 tid (fun t => { t with image := none })
        let s3 := eraseTexture s2 tid
        match img with
        | none => s3
        | some iid => if imgUsers s3 iid < 1 then eraseImage s3 iid else s3
      else s1

/-- `FnMaterial.update_sphere_texture_type`: missing SPHERE slot is a
no-op; a coded value outside {1,2,3} disables the slot; 1/2/3 enable it
and select MULTIPLY/ADD/SUBTRACT. -/
def update_sphere_texture_type (s : State) (mi : Nat) : State :=
  match s.materials[mi]? with
  | none => s
  | some m =>
    match slotGet m SPHERE_TEX_SLOT with
    | none => s
    | some _ =>
      let sphere_texture_type := m.mmd_material.sphere_texture_type
      if sphere_texture_type ≠ 1 ∧ sphere_texture_type ≠ 2 ∧ sphere_texture_type ≠ 3 then
        updateSlot s mi SPHERE_TEX_SLOT (fun sl => { sl with use := false })
      else
        updateSlot s mi SPHERE_TEX_SLOT (fun sl =>
          { sl with use := true,
                    blend_type :=
                      if sphere_texture_type = 1 then "MULTIPLY"
                      else if sphere_texture_type = 2 then "ADD"
                      else "SUBTRACT" })

/-- `FnMaterial.create_sphere_texture`: (re)create slot SPHERE with NORMAL
coordinates, attach `__load_texture(filepath)`, clear `use_alpha` on the
shared texture and its image, then run `update_sphere_texture_type`. -/
def create_sphere_texture (env : Env) (s : State) (mi : Nat) (filepath : String) : State :=
  let s1 := setSlot s mi SPHERE_TEX_SLOT (some { newSlot with texture_coords := "NORMAL" })
  let r := load_texture env s1 filepath
  let s3 := updateSlot r.2 mi SPHERE_TEX_SLOT (fun sl => { sl with texture := some r.1 })
  let s4 := updateTexture s3 r.1 (fun t => { t with use_alpha := false })
  let s5 :=
    match (getTexture s4 r.1).bind (fun t => t.image) with
    | some iid => updateImage s4 iid (fun i => { i with use_alpha := false })
    | none => s4
  update_sphere_texture_type s5 mi

def remove_sphere_texture (s : State) (mi : Nat) : State :=
  remove_texture s mi SPHERE_TEX_SLOT

/-- `FnMaterial.create_toon_texture`: (re)create slot TOON with NORMAL
coordinates and MULTIPLY blend, attach `__load_texture(filepath)`, clear
`use_alpha` on the shared texture and its image, set extension EXTEND. -/
def create_toon_texture (env : Env) (s : State) (mi : Nat) (filepath : String) : State :=
  let s1 := setSlot s mi TOON_TEX_SLOT
    (some { newSlot with texture_coords := "NORMAL", blend_type := "MULTIPLY" })
  let r := load_texture env s1 filepath
  let s3 := updateSlot r.2 mi TOON_TEX_SLOT (fun sl => { sl with texture := some r.1 })
  let s4 := updateTexture s3 r.1 (fun t => { t with use_alpha := false })
  let s5 :=
    match (getTexture s4 r.1).bind (fun t => t.image) with
    | some iid => updateImage s4 iid (fun i => { i with use_alpha := false })
    | none => s4
  updateTexture s5 r.1 (fun t => { t with extension := "EXTEND" })

/-- `'%02d' % n` for the non-negative values used by the shared-toon path. -/
def pad2 (n : Nat) : String :=
  if n < 10 then "0" ++ toString n else toString n

/-- The shared-toon filename `'toon%02d.bmp' % (shared_toon_texture + 1)`. -/
def sharedToonName (shared_toon_texture : Nat) : String :=
  "toon" ++ pad2 (shared_toon_texture + 1) ++ ".bmp"

/-- `FnMaterial.update_toon_texture`: shared-toon path, else literal
`toon_texture` path when non-empty, else remove the TOON slot. -/
def update_toon_texture (env : Env) (s : State) (mi : Nat) : State :=
  match s.materials[mi]? with
  | none => s
  | some m =>
    let mmd_mat := m.mmd_material
    if mmd_mat.is_shared_toon_texture then
      let toon_path := env.joinPath env.sharedToonFolder (sharedToonName mmd_mat.shared_toon_texture)
      create_toon_texture env s mi (env.resolveNCase toon_path)
    else if mmd_mat.toon_texture ≠ "" then
      create_toon_texture env s mi mmd_mat.toon_texture
    else
      remove_texture s mi TOON_TEX_SLOT

def remove_toon_texture (s : State) (mi : Nat) : State :=
  remove_texture s mi TOON_TEX_SLOT

/-- `FnMaterial.from_material_id`: linear scan comparing each material's
stored `mmd_material.material_id` field (not the lazy property); returns
the index of the first hit.  Pairs the result with the scene state to make
the absence of mutation explicit. -/
def from_material_id_scan : List Material → Int → Nat → Option Nat
  | [], _, _ => none
  | m :: rest, mid, i =>
    if m.mmd_material.material_id = mid then some i
    else from_material_id_scan rest mid (i + 1)

def from_material_id (s : State) (material_id : Int) : Option Nat × State :=
  (from_material_id_scan s.materials material_id 0, s)

/-- The `material_id` property getter: when the stored id is negative,
scan all materials for the maximum id (accumulator starting at -1), store
`max_id + 1`, and return the stored value. -/
def material_id (s : State) (mi : Nat) : Int × State :=
  match s.materials[mi]? with
  | none => (0, s)
  | some m =>
    if m.mmd_material.material_id < 0 then
      let max_id := s.materials.foldl (fun a mat => max a mat.mmd_material.material_id) (-1)
      (max_id + 1,
        updateMaterial s mi (fun m2 =>
          { m2 with mmd_material := { m2.mmd_material with material_id := max_id + 1 } }))
    else (m.mmd_material.material_id, s)

/-- `FnMaterial.update_drop_shadow`: `pass`. -/
def update_drop_shadow (s : State) (_mi : Nat) : State := s

/-- `FnMaterial.update_self_shadow_map`: always set
`use_cast_buffer_shadows`; set `use_cast_shadows` only when the attribute
exists (`hasattr`). -/
def update_self_shadow_map (s : State) (mi : Nat) : State :=
  updateMaterial s mi (fun m =>
    let v := m.mmd_material.enabled_self_shadow_map
    let m1 := { m with use_cast_buffer_shadows := v }
    match m.use_cast_shadows with
    | some _ => { m1 with use_cast_shadows := some v }
    | none => m1)

/-- `FnMaterial.update_self_shadow`. -/
def update_self_shadow (s : State) (mi : Nat) : State :=
  updateMaterial s mi (fun m =>
    let v := m.mmd_material.enabled_self_shadow
    { m with use_shadows := v, use_transparent_shadows := v })

/-- Store sanity: datablock keys are below the fresh-key counters and
pairwise distinct, and every texture's image reference resolves. -/
def WF (s : State) : Prop :=
  (∀ e ∈ s.textures, e.1 < s.nextTexId) ∧
  (∀ e ∈ s.images, e.1 < s.nextImgId) ∧
  (s.textures.map (fun e => e.1)).Nodup ∧
  (s.images.map (fun e => e.1)).Nodup ∧
  (∀ e ∈ s.textures, ∀ j, e.2.image = some j → (getImage s j).isSome)

instance (s : State) : Decidable (WF s) := by
  unfold WF; infer_instance

end MMD

namespace MMD

section AssocLemmas

variable {α : Type}

theorem assocFind_append (l1 l2 : List (Nat × α)) (k : Nat) :
    assocFind (l1 ++ l2) k = (assocFind l1 k).or (assocFind l2 k) := by
  induction l1 with
  | nil => simp [assocFind]
  | cons e rest ih =>
    by_cases h : e.1 = k <;> simp [assocFind, h, ih]

theorem assocFind_eq_none {l : List (Nat × α)} {k : Nat}
    (h : ∀ e ∈ l, e.1 ≠ k) : assocFind l k = none := by
  induction l with
  | nil => rfl
  | cons e rest ih =>
    have he : e.1 ≠ k := h e (by simp)
    simp only [assocFind, if_neg he]
    exact ih (fun e2 h2 => h e2 (by simp [h2]))

theorem assocFind_filter_ne (l : List (Nat × α)) (k : Nat) :
    assocFind (l.filter (fun e => e.1 != k)) k = none := by
  apply assocFind_eq_none
  intro e he
  have := (List.mem_filter.mp he).2
  simpa using this

theorem assocFind_map_update_self (l : List (Nat × α)) (k : Nat) (f : α → α) :
    assocFind (l.map (fun e => if e.1 = k then (e.1, f e.2) else e)) k =
      (assocFind l k).map f := by
  induction l with
  | nil => rfl
  | cons e rest ih =>
    by_cases h : e.1 = k <;> simp [assocFind, h, ih]

theorem assocFind_map_update_ne (l : List (Nat × α)) (k k' : Nat) (f : α → α)
    (h : k' ≠ k) :
    assocFind (l.map (fun e => if e.1 = k then (e.1, f e.2) else e)) k' =
      assocFind l k' := by
  induction l with
  | nil => rfl
  | cons e rest ih =>
    by_cases hek : e.1 = k
    · have hkk' : ¬(k = k') := fun hc => h hc.symm
      simp [assocFind, hek, hkk', ih]
    · simp [assocFind, hek, ih]

theorem assocFind_mem {l : List (Nat × α)} {k : Nat} {v : α}
    (h : assocFind l k = some v) : (k, v) ∈ l := by
  induction l with
  | nil => simp [assocFind] at h
  | cons e rest ih =>
    by_cases hek : e.1 = k
    · simp only [assocFind, if_pos hek] at h
      have : e = (k, v) := by
        cases e; cases h; cases hek; rfl
      simp [this]
    · simp only [assocFind, if_neg hek] at h
      exact List.mem_cons_of_mem _ (ih h)

theorem assocFind_nodup_mem {l : List (Nat × α)} {k : Nat} {v : α}
    (hnd : (l.map (fun e => e.1)).Nodup) (hmem : (k, v) ∈ l) :
    assocFind l k = some v := by
  induction l with
  | nil => simp at hmem
  | cons e rest ih =>
    rw [List.map_cons] at hnd
    have hnd2 := List.nodup_cons.mp hnd
    rcases List.mem_cons.mp hmem with heq | htail
    · cases heq; simp [assocFind]
    · by_cases hek : e.1 = k
      · exfalso
        have hk : k ∈ rest.map (fun e => e.1) :=
          List.mem_map.mpr ⟨(k, v), htail, rfl⟩
        have hni := hnd2.1
        rw [hek] at hni
        exact hni hk
      · simp only [assocFind, if_neg hek]
        exact ih hnd2.2 htail

end AssocLemmas

section FindLemmas

theorem findImage_append (env : Env) (l1 l2 : List (Nat × Image)) (p : String) :
    findImage env (l1 ++ l2) p = (findImage env l1 p).or (findImage env l2 p) := by
  induction l1 with
  | nil => simp [findImage]
  | cons e rest ih =>
    by_cases h : same_image_file env (some e.2) p <;> simp [findImage, h, ih]

theorem findImage_some {env : Env} {l : List (Nat × Image)} {p : String}
    {e : Nat × Image} (h : findImage env l p = some e) :
    e ∈ l ∧ same_image_file env (some e.2) p = true := by
  induction l with
  | nil => simp [findImage] at h
  | cons e2 rest ih =>
    by_cases h2 : same_image_file env (some e2.2) p
    · simp only [findImage, if_pos h2] at h
      cases h; exact ⟨by simp, h2⟩
    · simp only [findImage, if_neg h2] at h
      have := ih h
      exact ⟨List.mem_cons_of_mem _ this.1, this.2⟩

theorem findImage_eq_none {env : Env} {l : List (Nat × Image)} {p : String}
    (h : findImage env l p = none) :
    ∀ e ∈ l, same_image_file env (some e.2) p = false := by
  induction l with
  | nil => simp
  | cons e2 rest ih =>
    by_cases h2 : same_image_file env (some e2.2) p
    · simp [findImage, h2] at h
    · simp only [findImage, if_neg h2] at h
      intro e he
      rcases List.mem_cons.mp he with heq | htail
      · cases heq; simpa using h2
      · exact ih h e htail

theorem findTexture_append (env : Env) (imgs : List (Nat × Image))
    (l1 l2 : List (Nat × Texture)) (p : String) :
    findTexture env imgs (l1 ++ l2) p =
      (findTexture env imgs l1 p).or (findTexture env imgs l2 p) := by
  induction l1 with
  | nil => simp [findTexture]
  | cons e rest ih =>
    by_cases h : texMatch env imgs e.2 p <;> simp [findTexture, h, ih]

theorem findTexture_some {env : Env} {imgs : List (Nat × Image)}
    {l : List (Nat × Texture)} {p : String} {e : Nat × Texture}
    (h : findTexture env imgs l p = some e) :
    e ∈ l ∧ texMatch env imgs e.2 p = true := by
  induction l with
  | nil => simp [findTexture] at h
  | cons e2 rest ih =>
    by_cases h2 : texMatch env imgs e2.2 p
    · simp only [findTexture, if_pos h2] at h
      cases h; exact ⟨by simp, h2⟩
    · simp only [findTexture, if_neg h2] at h
      have := ih h
      exact ⟨List.mem_cons_of_mem _ this.1, this.2⟩

theorem findTexture_eq_none {env : Env} {imgs : List (Nat × Image)}
    {l : List (Nat × Texture)} {p : String}
    (h : findTexture env imgs l p = none) :
    ∀ e ∈ l, texMatch env imgs e.2 p = false := by
  induction l with
  | nil => simp
  | cons e2 rest ih =>
    by_cases h2 : texMatch env imgs e2.2 p
    · simp [findTexture, h2] at h
    · simp only [findTexture, if_neg h2] at h
      intro e he
      rcases List.mem_cons.mp he with heq | htail
      · cases heq; simpa using h2
      · exact ih h e htail

theorem findTexture_congr {env : Env} {imgs1 imgs2 : List (Nat × Image)}
    {l : List (Nat × Texture)} {p : String}
    (h : ∀ e ∈ l, texMatch env imgs1 e.2 p = texMatch env imgs2 e.2 p) :
    findTexture env imgs1 l p = findTexture env imgs2 l p := by
  induction l with
  | nil => rfl
  | cons e rest ih =>
    have he := h e (by simp)
    by_cases h1 : texMatch env imgs1 e.2 p
    · simp [findTexture, h1, ← he]
    · have h2 : texMatch env imgs2 e.2 p = false := by rw [← he]; simpa using h1
      simp only [findTexture, if_neg h1, h2]
      simp only [Bool.false_eq_true, if_false]
      exact ih (fun e2 hm => h e2 (by simp [hm]))

end FindLemmas

end MMD

namespace MMD

section StateLemmas

theorem updateMaterial_textures (s : State) (mi : Nat) (f : Material → Material) :
    (updateMaterial s mi f).textures = s.textures := by
  unfold updateMaterial setMaterial
  cases s.materials[mi]? <;> rfl

theorem updateMaterial_images (s : State) (mi : Nat) (f : Material → Material) :
    (updateMaterial s mi f).images = s.images := by
  unfold updateMaterial setMaterial
  cases s.materials[mi]? <;> rfl

theorem updateMaterial_log (s : State) (mi : Nat) (f : Material → Material) :
    (updateMaterial s mi f).log = s.log := by
  unfold updateMaterial setMaterial
  cases s.materials[mi]? <;> rfl

theorem updateMaterial_nextTexId (s : State) (mi : Nat) (f : Material → Material) :
    (updateMaterial s mi f).nextTexId = s.nextTexId := by
  unfold updateMaterial setMaterial
  cases s.materials[mi]? <;> rfl

theorem updateMaterial_nextImgId (s : State) (mi : Nat) (f : Material → Material) :
    (updateMaterial s mi f).nextImgId = s.nextImgId := by
  unfold updateMaterial setMaterial
  cases s.materials[mi]? <;> rfl

theorem updateMaterial_getElem_self {s : State} {mi : Nat} {m : Material}
    (hm : s.materials[mi]? = some m) (f : Material → Material) :
    (updateMaterial s mi f).materials[mi]? = some (f m) := by
  unfold updateMaterial setMaterial
  rw [hm]
  have hlt : mi < s.materials.length := (List.getElem?_eq_some.mp hm).1
  simpa using List.getElem?_set_self (by simpa using hlt)

theorem updateMaterial_getElem_ne (s : State) {mi mj : Nat} (f : Material → Material)
    (h : mj ≠ mi) :
    (updateMaterial s mi f).materials[mj]? = s.materials[mj]? := by
  unfold updateMaterial setMaterial
  cases s.materials[mi]? <;> simp [List.getElem?_set_ne (fun hc => h hc.symm)]

theorem updateMaterial_none {s : State} {mi : Nat}
    (hm : s.materials[mi]? = none) (f : Material → Material) :
    updateMaterial s mi f = s := by
  simp [updateMaterial, hm]

theorem slotGet_some {m : Material} {k : Nat} {sl : TextureSlot}
    (h : slotGet m k = some sl) : m.texture_slots[k]? = some (some sl) := by
  unfold slotGet at h
  cases hks : m.texture_slots[k]? with
  | none => rw [hks] at h; simp at h
  | some o =>
    rw [hks] at h
    simp only [Option.getD_some] at h
    rw [h]

theorem getSlot_updateSlot_self {s : State} {mi : Nat} {m : Material}
    (hm : s.materials[mi]? = some m) (k : Nat) (f : TextureSlot → TextureSlot) :
    getSlot (updateSlot s mi k f) mi k = (getSlot s mi k).map f := by
  have hg := updateMaterial_getElem_self hm
    (fun m => match slotGet m k with
              | some sl => slotSet m k (some (f sl))
              | none => m)
  simp only [getSlot, updateSlot, hg, hm]
  cases hsl : slotGet m k with
  | none => simp [hsl]
  | some sl =>
    have hk := slotGet_some hsl
    have hklt : k < m.texture_slots.length := (List.getElem?_eq_some.mp hk).1
    simp only [Option.some_bind, slotGet, slotSet]
    rw [List.getElem?_set_self (by simpa using hklt), hk]
    simp

theorem getSlot_updateSlot_other (s : State) {mi mj : Nat} (ki kj : Nat)
    (f : TextureSlot → TextureSlot) (h : ¬(mj = mi ∧ kj = ki)) :
    getSlot (updateSlot s mi ki f) mj kj = getSlot s mj kj := by
  by_cases hmm : mj = mi
  · subst hmm
    have hkk : kj ≠ ki := fun hc => h ⟨rfl, hc⟩
    cases hm : s.materials[mj]? with
    | none =>
      unfold updateSlot
      rw [updateMaterial_none hm]
    | some m =>
      have hg := updateMaterial_getElem_self hm
        (fun m => match slotGet m ki with
                  | some sl => slotSet m ki (some (f sl))
                  | none => m)
      simp only [getSlot, updateSlot, hg, hm]
      cases hsl : slotGet m ki with
      | none => simp [hsl]
      | some sl =>
        simp only [hsl, Option.some_bind, slotGet, slotSet]
        rw [List.getElem?_set_ne (fun hc => hkk hc.symm)]
  · unfold updateSlot
    simp only [getSlot, updateMaterial_getElem_ne s _ hmm]

theorem getSlot_setSlot_none_self (s : State) (mi k : Nat) :
    getSlot (setSlot s mi k none) mi k = none := by
  cases hm : s.materials[mi]? with
  | none =>
    unfold setSlot
    rw [updateMaterial_none hm]
    simp [getSlot, hm]
  | some m =>
    have hg := updateMaterial_getElem_self hm (fun m => slotSet m k none)
    simp only [getSlot, setSlot, hg]
    simp only [Option.some_bind, slotGet, slotSet]
    rw [@List.getElem?_set (Option TextureSlot) m.texture_slots k k none]
    by_cases hk : k < m.texture_slots.length <;> simp [hk]

theorem getSlot_setSlot_other (s : State) {mi mj : Nat} (ki kj : Nat)
    (v : Option TextureSlot) (h : ¬(mj = mi ∧ kj = ki)) :
    getSlot (setSlot s mi ki v) mj kj = getSlot s mj kj := by
  by_cases hmm : mj = mi
  · subst hmm
    have hkk : kj ≠ ki := fun hc => h ⟨rfl, hc⟩
    cases hm : s.materials[mj]? with
    | none =>
      unfold setSlot
      rw [updateMaterial_none hm]
    | some m =>
      have hg := updateMaterial_getElem_self hm (fun m => slotSet m ki v)
      simp only [getSlot, setSlot, hg, hm]
      simp only [Option.some_bind, slotGet, slotSet]
      rw [List.getElem?_set_ne (fun hc => hkk hc.symm)]
  · unfold setSlot
    simp only [getSlot, updateMaterial_getElem_ne s _ hmm]

theorem slotTexture_setSlot_none_self (s : State) (mi k : Nat) :
    slotTexture (setSlot s mi k none) mi k = none := by
  simp [slotTexture, getSlot_setSlot_none_self]

theorem slotTexture_setSlot_other (s : State) {mi mj : Nat} (ki kj : Nat)
    (v : Option TextureSlot) (h : ¬(mj = mi ∧ kj = ki)) :
    slotTexture (setSlot s mi ki v) mj kj = slotTexture s mj kj := by
  unfold slotTexture
  rw [getSlot_setSlot_other s ki kj v h]

end StateLemmas

end MMD

namespace MMD

section CountLemmas

theorem texUsers_eq_zero_iff (s : State) (tid : Nat) :
    texUsers s tid = 0 ↔ ∀ mj k, slotTexture s mj k ≠ some tid := by
  unfold texUsers
  rw [List.sum_eq_zero_iff]
  constructor
  · intro h mj k hcon
    unfold slotTexture getSlot at hcon
    cases hm : s.materials[mj]? with
    | none => rw [hm] at hcon; simp at hcon
    | some m =>
      rw [hm] at hcon
      simp only [Option.some_bind] at hcon
      cases hsl : slotGet m k with
      | none => rw [hsl] at hcon; simp at hcon
      | some sl =>
        rw [hsl] at hcon
        simp only [Option.some_bind] at hcon
        have hmem : m ∈ s.materials := List.mem_iff_getElem?.mpr ⟨mj, hm⟩
        have hcount := h (m.texture_slots.countP (fun osl => refsTex osl tid))
          (List.mem_map.mpr ⟨m, hmem, rfl⟩)
        have hslmem : (some sl) ∈ m.texture_slots :=
          List.mem_iff_getElem?.mpr ⟨k, slotGet_some hsl⟩
        have hpos : 0 < m.texture_slots.countP (fun osl => refsTex osl tid) :=
          List.countP_pos_iff.mpr ⟨some sl, hslmem, by simp [refsTex, hcon]⟩
        omega
  · intro h x hx
    rcases List.mem_map.mp hx with ⟨m, hm, rfl⟩
    rw [List.countP_eq_zero]
    intro osl hosl href
    rcases List.mem_iff_getElem?.mp hosl with ⟨k, hk⟩
    rcases List.mem_iff_getElem?.mp hm with ⟨mj, hmj⟩
    cases osl with
    | none => simp [refsTex] at href
    | some sl =>
      have htex : sl.texture = some tid := by simpa [refsTex] using href
      apply h mj k
      unfold slotTexture getSlot
      rw [hmj]
      simp only [Option.some_bind, slotGet]
      rw [hk]
      simpa using htex

theorem imgUsers_eq_zero_iff (s : State) (iid : Nat) :
    imgUsers s iid = 0 ↔ ∀ e ∈ s.textures, e.2.image ≠ some iid := by
  unfold imgUsers
  rw [List.countP_eq_zero]
  constructor <;> intro h e he
  · intro hcon
    have := h e he
    simp [hcon] at this
  · simp [h e he]

theorem filter_map_update {α : Type} (l : List (Nat × α)) (k : Nat) (f : α → α) :
    (l.map (fun e => if e.1 = k then (e.1, f e.2) else e)).filter (fun e => e.1 != k) =
      l.filter (fun e => e.1 != k) := by
  induction l with
  | nil => rfl
  | cons e rest ih =>
    by_cases hek : e.1 = k
    · simp [List.filter_cons, hek, ih]
    · simp [List.filter_cons, hek, ih]

theorem eraseTexture_updateTexture (s : State) (tid : Nat) (f : Texture → Texture) :
    eraseTexture (updateTexture s tid f) tid =
      { s with textures := s.textures.filter (fun e => e.1 != tid) } := by
  unfold eraseTexture updateTexture
  simp [filter_map_update]

theorem getTexture_setSlot (s : State) (mi k : Nat) (v : Option TextureSlot) (tid : Nat) :
    getTexture (setSlot s mi k v) tid = getTexture s tid := by
  unfold getTexture setSlot
  rw [updateMaterial_textures]

theorem getImage_setSlot (s : State) (mi k : Nat) (v : Option TextureSlot) (iid : Nat) :
    getImage (setSlot s mi k v) iid = getImage s iid := by
  unfold getImage setSlot
  rw [updateMaterial_images]

theorem getTexture_updateSlot (s : State) (mi k : Nat) (f : TextureSlot → TextureSlot)
    (tid : Nat) : getTexture (updateSlot s mi k f) tid = getTexture s tid := by
  unfold getTexture updateSlot
  rw [updateMaterial_textures]

theorem getImage_updateSlot (s : State) (mi k : Nat) (f : TextureSlot → TextureSlot)
    (iid : Nat) : getImage (updateSlot s mi k f) iid = getImage s iid := by
  unfold getImage updateSlot
  rw [updateMaterial_images]

theorem textures_setSlot (s : State) (mi k : Nat) (v : Option TextureSlot) :
    (setSlot s mi k v).textures = s.textures := by
  unfold setSlot
  rw [updateMaterial_textures]

theorem images_setSlot (s : State) (mi k : Nat) (v : Option TextureSlot) :
    (setSlot s mi k v).images = s.images := by
  unfold setSlot
  rw [updateMaterial_images]

theorem getTexture_updateTexture_self (s : State) (tid : Nat) (f : Texture → Texture) :
    getTexture (updateTexture s tid f) tid = (getTexture s tid).map f := by
  unfold getTexture updateTexture
  exact assocFind_map_update_self s.textures tid f

theorem getImage_updateImage_self (s : State) (iid : Nat) (f : Image → Image) :
    getImage (updateImage s iid f) iid = (getImage s iid).map f := by
  unfold getImage updateImage
  exact assocFind_map_update_self s.images iid f

theorem getTexture_updateImage (s : State) (iid : Nat) (f : Image → Image) (tid : Nat) :
    getTexture (updateImage s iid f) tid = getTexture s tid := rfl

theorem getImage_updateTexture (s : State) (tid : Nat) (f : Texture → Texture) (iid : Nat) :
    getImage (updateTexture s tid f) iid = getImage s iid := rfl

end CountLemmas

end MMD

namespace MMD

section MoreLemmas

theorem map_update_of_forall_ne {α : Type} {l : List (Nat × α)} {k : Nat}
    (f : α → α) (h : ∀ e ∈ l, e.1 ≠ k) :
    l.map (fun e => if e.1 = k then (e.1, f e.2) else e) = l := by
  induction l with
  | nil => rfl
  | cons e rest ih =>
    have he : e.1 ≠ k := h e (by simp)
    simp only [List.map_cons, if_neg he]
    rw [ih (fun e2 h2 => h e2 (by simp [h2]))]

theorem map_if_eq_of_forall_ne {α : Type} {l : List (Nat × α)} {k : Nat}
    (g : Nat × α → Nat × α) (h : ∀ e ∈ l, e.1 ≠ k) :
    l.map (fun e => if e.1 = k then g e else e) = l := by
  induction l with
  | nil => rfl
  | cons e rest ih =>
    have he : e.1 ≠ k := h e (by simp)
    simp only [List.map_cons, if_neg he]
    rw [ih (fun e2 h2 => h e2 (by simp [h2]))]

theorem assocFind_append_fresh {α : Type} {l : List (Nat × α)} {k : Nat}
    (h : ∀ e ∈ l, e.1 ≠ k) (v : α) :
    assocFind (l ++ [(k, v)]) k = some v := by
  rw [assocFind_append, assocFind_eq_none h]
  simp [assocFind]

theorem set_getElem?_self {α : Type} {l : List α} {i : Nat} {a : α}
    (h : l[i]? = some a) : l.set i a = l := by
  induction l generalizing i with
  | nil => simp at h
  | cons b rest ih =>
    cases i with
    | zero => simp at h; simp [h]
    | succ n =>
      simp only [List.getElem?_cons_succ] at h
      simp [List.set_cons_succ, ih h]

theorem load_image_textures (env : Env) (s : State) (p : String) :
    (load_image env s p).2.textures = s.textures := by
  unfold load_image
  cases findImage env s.images p with
  | some e => rfl
  | none => by_cases h : env.loadable p <;> simp [h]

theorem load_image_materials (env : Env) (s : State) (p : String) :
    (load_image env s p).2.materials = s.materials := by
  unfold load_image
  cases findImage env s.images p with
  | some e => rfl
  | none => by_cases h : env.loadable p <;> simp [h]

theorem load_image_nextTexId (env : Env) (s : State) (p : String) :
    (load_image env s p).2.nextTexId = s.nextTexId := by
  unfold load_image
  cases findImage env s.images p with
  | some e => rfl
  | none => by_cases h : env.loadable p <;> simp [h]

theorem load_texture_materials (env : Env) (s : State) (p : String) :
    (load_texture env s p).2.materials = s.materials := by
  unfold load_texture
  cases findTexture env s.images s.textures p with
  | some e => rfl
  | none =>
    simp only [updateTexture]
    rw [load_image_materials]

theorem load_texture_images_of_found {env : Env} {s : State} {p : String}
    {e : Nat × Texture} (h : findTexture env s.images s.textures p = some e) :
    load_texture env s p = (e.1, s) := by
  unfold load_texture
  rw [h]

/-- What `__load_image` does to the image store: either a dedup hit
(state untouched) or one new file-backed image appended under the fresh
key, with `filepath` kept as requested. -/
theorem load_image_images_cases (env : Env) (s : State) (p : String) :
    (load_image env s p).2 = s ∨
    ∃ img : Image, img.source = "FILE" ∧ img.filepath = p ∧
      (load_image env s p).1 = s.nextImgId ∧
      (load_image env s p).2.images = s.images ++ [(s.nextImgId, img)] := by
  unfold load_image
  cases findImage env s.images p with
  | some e => exact Or.inl rfl
  | none =>
    right
    cases hl : env.loadable p <;> simp [hl]

/-- Old image lookups survive `__load_image` (the store only grows). -/
theorem load_image_preserves_getImage (env : Env) (s : State) (p : String)
    {j : Nat} {r : Image} (h : getImage s j = some r) :
    getImage (load_image env s p).2 j = some r := by
  rcases load_image_images_cases env s p with heq | ⟨img, _, _, _, heq⟩
  · rw [heq]; exact h
  · unfold getImage at h ⊢
    rw [heq, assocFind_append, h]
    rfl

/-- `__load_image` returns an image that is in the store afterwards and
passes `__same_image_file` for the requested path, provided the store is
well-formed and the path is already in user-resolved form. -/
theorem load_image_result (env : Env) (s : State) (p : String)
    (hWF : WF s) (hp : env.fromUser p = p) :
    ∃ img, getImage (load_image env s p).2 (load_image env s p).1 = some img ∧
      same_image_file env (some img) p = true := by
  unfold load_image
  cases hf : findImage env s.images p with
  | some e =>
    have hfs := findImage_some hf
    refine ⟨e.2, ?_, hfs.2⟩
    unfold getImage
    exact assocFind_nodup_mem hWF.2.2.2.1 (by rcases e with ⟨a, b⟩; exact hfs.1)
  | none =>
    have hfresh : ∀ e ∈ s.images, e.1 ≠ s.nextImgId :=
      fun e he => Nat.ne_of_lt (hWF.2.1 e he)
    cases hl : env.loadable p
    · simp only [hl, Bool.false_eq_true, if_false]
      refine ⟨{ name := env.baseName p, source := "FILE", filepath := p,
                use_alpha := true, width := 1, height := 1 }, ?_, ?_⟩
      · unfold getImage
        exact assocFind_append_fresh hfresh _
      · simp [same_image_file, hp]
    · simp only [hl, if_true]
      refine ⟨{ name := env.baseName p, source := "FILE", filepath := p,
                use_alpha := true, width := env.imgWidth p, height := env.imgHeight p }, ?_, ?_⟩
      · unfold getImage
        exact assocFind_append_fresh hfresh _
      · simp [same_image_file, hp]

end MoreLemmas

end MMD

namespace MMD

section MaxLemmas

theorem foldl_max_init_le (l : List Int) (a : Int) : a ≤ l.foldl max a := by
  induction l generalizing a with
  | nil => exact le_refl a
  | cons x rest ih => exact le_trans (le_max_left a x) (ih (max a x))

theorem foldl_max_mem_le (l : List Int) (a : Int) :
    ∀ x ∈ l, x ≤ l.foldl max a := by
  induction l generalizing a with
  | nil => intro x hx; simp at hx
  | cons y rest ih =>
    intro x hx
    rcases List.mem_cons.mp hx with rfl | hm
    · exact le_trans (le_max_right a x) (foldl_max_init_le rest (max a x))
    · exact ih (max a y) x hm

theorem foldl_max_cases (l : List Int) (a : Int) :
    l.foldl max a = a ∨ l.foldl max a ∈ l := by
  induction l generalizing a with
  | nil => exact Or.inl rfl
  | cons y rest ih =>
    rw [List.foldl_cons]
    rcases ih (max a y) with h | h
    · rcases max_choice a y with hm | hm
      · left; rw [h, hm]
      · right; rw [h, hm]; simp
    · right; exact List.mem_cons_of_mem _ h

end MaxLemmas

/-- The stored `material_id` of every material, in scene order. -/
def materialIds (s : State) : List Int :=
  s.materials.map (fun m => m.mmd_material.material_id)

/-- The uniqueness invariant: no two positions hold the same
non-negative id. -/
def uniqueIds (l : List Int) : Prop :=
  ∀ (i j : Nat) (a b : Int), l[i]? = some a → l[j]? = some b → i ≠ j → 0 ≤ a → a ≠ b

section IdLemmas

theorem materialIds_updateMaterial (s : State) (mi : Nat) (f : Material → Material)
    (h : ∀ m, (f m).mmd_material.material_id = m.mmd_material.material_id) :
    materialIds (updateMaterial s mi f) = materialIds s := by
  unfold updateMaterial
  cases hm : s.materials[mi]? with
  | none => rfl
  | some m =>
    unfold materialIds setMaterial
    simp only [List.map_set, h m]
    apply set_getElem?_self
    rw [List.getElem?_map, hm]
    rfl

theorem materialIds_setSlot (s : State) (mi k : Nat) (v : Option TextureSlot) :
    materialIds (setSlot s mi k v) = materialIds s :=
  materialIds_updateMaterial s mi _ (fun _ => rfl)

theorem materialIds_updateSlot (s : State) (mi k : Nat) (f : TextureSlot → TextureSlot) :
    materialIds (updateSlot s mi k f) = materialIds s :=
  materialIds_updateMaterial s mi _ (fun m => by cases slotGet m k <;> rfl)

theorem materialIds_updateTexture (s : State) (tid : Nat) (f : Texture → Texture) :
    materialIds (updateTexture s tid f) = materialIds s := rfl

theorem materialIds_updateImage (s : State) (iid : Nat) (f : Image → Image) :
    materialIds (updateImage s iid f) = materialIds s := rfl

theorem materialIds_eraseTexture (s : State) (tid : Nat) :
    materialIds (eraseTexture s tid) = materialIds s := rfl

theorem materialIds_eraseImage (s : State) (iid : Nat) :
    materialIds (eraseImage s iid) = materialIds s := rfl

theorem materialIds_load_image (env : Env) (s : State) (p : String) :
    materialIds (load_image env s p).2 = materialIds s := by
  unfold materialIds
  rw [load_image_materials]

theorem materialIds_load_texture (env : Env) (s : State) (p : String) :
    materialIds (load_texture env s p).2 = materialIds s := by
  unfold materialIds
  rw [load_texture_materials]

end IdLemmas

section MatchLemmas

theorem texMatch_spec {env : Env} {imgs : List (Nat × Image)} {t : Texture}
    {p : String} (h : texMatch env imgs t p = true) :
    t.ttype = "IMAGE" ∧ ∃ j w, t.image = some j ∧ assocFind imgs j = some w ∧
      same_image_file env (some w) p = true := by
  unfold texMatch at h
  rw [Bool.and_eq_true] at h
  obtain ⟨h1, h2⟩ := h
  refine ⟨by simpa using h1, ?_⟩
  cases hj : t.image with
  | none => rw [hj] at h2; simp [same_image_file] at h2
  | some j =>
    rw [hj] at h2
    simp only [Option.some_bind] at h2
    cases hw : assocFind imgs j with
    | none => rw [hw] at h2; simp [same_image_file] at h2
    | some w => rw [hw] at h2; exact ⟨j, w, rfl, hw, h2⟩

end MatchLemmas

section ObserverStability

theorem slotTexture_updateTexture (s : State) (tid : Nat) (f : Texture → Texture)
    (mj k : Nat) : slotTexture (updateTexture s tid f) mj k = slotTexture s mj k := rfl

theorem slotTexture_updateImage (s : State) (iid : Nat) (f : Image → Image)
    (mj k : Nat) : slotTexture (updateImage s iid f) mj k = slotTexture s mj k := rfl

theorem slotTexture_updateSlot_other (s : State) {mi mj : Nat} (ki kj : Nat)
    (f : TextureSlot → TextureSlot) (h : ¬(mj = mi ∧ kj = ki)) :
    slotTexture (updateSlot s mi ki f) mj kj = slotTexture s mj kj := by
  unfold slotTexture
  rw [getSlot_updateSlot_other s ki kj f h]

theorem sphere_type_textures (s : State) (mi : Nat) :
    (update_sphere_texture_type s mi).textures = s.textures := by
  cases hm : s.materials[mi]? with
  | none => simp [update_sphere_texture_type, hm]
  | some m =>
    simp only [update_sphere_texture_type, hm]
    cases hsl : slotGet m SPHERE_TEX_SLOT with
    | none => rfl
    | some sl =>
      simp only [hsl]
      split
      · exact updateMaterial_textures s mi _
      · exact updateMaterial_textures s mi _

theorem sphere_type_images (s : State) (mi : Nat) :
    (update_sphere_texture_type s mi).images = s.images := by
  cases hm : s.materials[mi]? with
  | none => simp [update_sphere_texture_type, hm]
  | some m =>
    simp only [update_sphere_texture_type, hm]
    cases hsl : slotGet m SPHERE_TEX_SLOT with
    | none => rfl
    | some sl =>
      simp only [hsl]
      split
      · exact updateMaterial_images s mi _
      · exact updateMaterial_images s mi _

theorem sphere_type_slotTexture_other (s : State) {mi mj : Nat} (k : Nat)
    (h : mj ≠ mi) :
    slotTexture (update_sphere_texture_type s mi) mj k = slotTexture s mj k := by
  cases hm : s.materials[mi]? with
  | none => simp [update_sphere_texture_type, hm]
  | some m =>
    simp only [update_sphere_texture_type, hm]
    cases hsl : slotGet m SPHERE_TEX_SLOT with
    | none => rfl
    | some sl =>
      simp only [hsl]
      split
      · exact slotTexture_updateSlot_other s _ _ _ (fun hc => h hc.1)
      · exact slotTexture_updateSlot_other s _ _ _ (fun hc => h hc.1)

theorem materialIds_sphere_type (s : State) (mi : Nat) :
    materialIds (update_sphere_texture_type s mi) = materialIds s := by
  cases hm : s.materials[mi]? with
  | none => simp [update_sphere_texture_type, hm]
  | some m =>
    simp only [update_sphere_texture_type, hm]
    cases hsl : slotGet m SPHERE_TEX_SLOT with
    | none => rfl
    | some sl =>
      simp only [hsl]
      split
      · exact materialIds_updateSlot s mi _ _
      · exact materialIds_updateSlot s mi _ _

end ObserverStability

end MMD

namespace MMD

/-- A concrete host environment for evaluating the development on small
scenes: identity path resolution, no stat-able files, every load fails. -/
def sampleEnv : Env :=
  { fromUser := fun p => p, inode := fun _ => none, loadable := fun _ => false,
    imgWidth := fun _ => 4, imgHeight := fun _ => 4, baseName := fun p => p,
    displayName := fun p => p, resolveNCase := fun p => p,
    joinPath := fun a b => a ++ "/" ++ b, sharedToonFolder := "shared" }

def sampleMMD : MMDMaterial :=
  { material_id := -1, is_shared_toon_texture := false, shared_toon_texture := 0,
    toon_texture := "", enabled_self_shadow_map := true, enabled_self_shadow := true,
    sphere_texture_type := 2 }

def sampleMat : Material :=
  { mmd_material := sampleMMD, texture_slots := [none, none, none],
    use_cast_buffer_shadows := false, use_cast_shadows := none,
    use_shadows := false, use_transparent_shadows := false }

def sampleState : State :=
  { materials := [sampleMat], textures := [], images := [],
    nextTexId := 0, nextImgId := 0, log := [] }

/-- C3: for a material whose SPHERE slot exists, `update_sphere_texture_type`
with coded value 1, 2 or 3 enables the slot and selects MULTIPLY, ADD or
SUBTRACT respectively; any other coded value (0 included) clears the slot's
enabled flag without removing the slot; and when the SPHERE slot does not
exist the call leaves the scene untouched. -/
theorem C3_update_sphere_texture_type (s : State) (mi : Nat) (m : Material)
    (hm : s.materials[mi]? = some m) :
    (slotGet m SPHERE_TEX_SLOT = none → update_sphere_texture_type s mi = s) ∧
    (∀ sl, slotGet m SPHERE_TEX_SLOT = some sl →
      (m.mmd_material.sphere_texture_type = 1 →
        getSlot (update_sphere_texture_type s mi) mi SPHERE_TEX_SLOT =
          some { sl with use := true, blend_type := "MULTIPLY" }) ∧
      (m.mmd_material.sphere_texture_type = 2 →
        getSlot (update_sphere_texture_type s mi) mi SPHERE_TEX_SLOT =
          some { sl with use := true, blend_type := "ADD" }) ∧
      (m.mmd_material.sphere_texture_type = 3 →
        getSlot (update_sphere_texture_type s mi) mi SPHERE_TEX_SLOT =
          some { sl with use := true, blend_type := "SUBTRACT" }) ∧
      (m.mmd_material.sphere_texture_type ≠ 1 →
        m.mmd_material.sphere_texture_type ≠ 2 →
        m.mmd_material.sphere_texture_type ≠ 3 →
        getSlot (update_sphere_texture_type s mi) mi SPHERE_TEX_SLOT =
          some { sl with use := false })) := by
  constructor
  · intro hnone
    simp [update_sphere_texture_type, hm, hnone]
  · intro sl hsl
    have hget : getSlot s mi SPHERE_TEX_SLOT = some sl := by
      simp [getSlot, hm, hsl]
    refine ⟨?_, ?_, ?_, ?_⟩
    · intro h1
      simp only [update_sphere_texture_type, hm, hsl, h1]
      rw [if_neg (by simp)]
      rw [getSlot_updateSlot_self hm, hget]
      simp
    · intro h2
      simp only [update_sphere_texture_type, hm, hsl, h2]
      rw [if_neg (by simp)]
      rw [getSlot_updateSlot_self hm, hget]
      simp
    · intro h3
      simp only [update_sphere_texture_type, hm, hsl, h3]
      rw [if_neg (by simp)]
      rw [getSlot_updateSlot_self hm, hget]
      simp
    · intro h1 h2 h3
      simp only [update_sphere_texture_type, hm, hsl]
      rw [if_pos ⟨h1, h2, h3⟩]
      rw [getSlot_updateSlot_self hm, hget]
      simp

def sphereSlot : TextureSlot :=
  { use := true, use_map_alpha := false, texture_coords := "NORMAL",
    blend_type := "MIX", texture := some 0 }

def sphereMat : Material :=
  { sampleMat with texture_slots := [none, none, some sphereSlot] }

def sphereState : State :=
  { sampleState with materials := [sphereMat] }

theorem C3_update_sphere_texture_type_witness :
    sphereState.materials[0]? = some sphereMat ∧
    slotGet sphereMat SPHERE_TEX_SLOT = some sphereSlot ∧
    sphereMat.mmd_material.sphere_texture_type = 2 ∧
    getSlot (update_sphere_texture_type sphereState 0) 0 SPHERE_TEX_SLOT =
      some { sphereSlot with use := true, blend_type := "ADD" } :=
  ⟨rfl, rfl, rfl,
    ((C3_update_sphere_texture_type sphereState 0 sphereMat rfl).2 sphereSlot rfl).2.1 rfl⟩

/-- C4: `update_toon_texture` runs exactly one of three branches: with the
shared-toon flag set it creates the toon texture from the case-insensitively
resolved join of the configured shared folder and `toon<NN>.bmp` where NN is
`shared_toon_texture + 1` zero-padded to two digits (index 2 gives
`toon03.bmp`); otherwise with a non-empty `toon_texture` string it creates
the toon texture from that literal path; otherwise it removes the TOON slot. -/
theorem C4_update_toon_texture (env : Env) (s : State) (mi : Nat) (m : Material)
    (hm : s.materials[mi]? = some m) :
    (m.mmd_material.is_shared_toon_texture = true →
      update_toon_texture env s mi =
        create_toon_texture env s mi (env.resolveNCase
          (env.joinPath env.sharedToonFolder
            ("toon" ++ pad2 (m.mmd_material.shared_toon_texture + 1) ++ ".bmp")))) ∧
    (m.mmd_material.is_shared_toon_texture = false →
      m.mmd_material.toon_texture ≠ "" →
      update_toon_texture env s mi =
        create_toon_texture env s mi m.mmd_material.toon_texture) ∧
    (m.mmd_material.is_shared_toon_texture = false →
      m.mmd_material.toon_texture = "" →
      update_toon_texture env s mi = remove_texture s mi TOON_TEX_SLOT) ∧
    (m.mmd_material.shared_toon_texture = 2 →
      sharedToonName m.mmd_material.shared_toon_texture = "toon03.bmp") := by
  refine ⟨?_, ?_, ?_, ?_⟩
  · intro hshared
    simp [update_toon_texture, hm, hshared, sharedToonName]
  · intro hshared htoon
    simp [update_toon_texture, hm, hshared, htoon]
  · intro hshared htoon
    simp [update_toon_texture, hm, hshared, htoon]
  · intro h2
    rw [h2]
    rfl

def toonMat : Material :=
  { sampleMat with mmd_material :=
      { sampleMMD with is_shared_toon_texture := true, shared_toon_texture := 2 } }

def toonState : State :=
  { sampleState with materials := [toonMat] }

theorem C4_update_toon_texture_witness :
    toonState.materials[0]? = some toonMat ∧
    toonMat.mmd_material.is_shared_toon_texture = true ∧
    toonMat.mmd_material.shared_toon_texture = 2 ∧
    sharedToonName toonMat.mmd_material.shared_toon_texture = "toon03.bmp" ∧
    update_toon_texture sampleEnv toonState 0 =
      create_toon_texture sampleEnv toonState 0 (sampleEnv.resolveNCase
        (sampleEnv.joinPath sampleEnv.sharedToonFolder
          ("toon" ++ pad2 (toonMat.mmd_material.shared_toon_texture + 1) ++ ".bmp"))) :=
  ⟨rfl, rfl, rfl,
    (C4_update_toon_texture sampleEnv toonState 0 toonMat rfl).2.2.2 rfl,
    (C4_update_toon_texture sampleEnv toonState 0 toonMat rfl).1 rfl⟩

/-- C8: `update_self_shadow_map` unconditionally copies
`enabled_self_shadow_map` into the legacy `use_cast_buffer_shadows` flag,
and also into `use_cast_shadows` when that attribute exists on the host
material; when the attribute is absent the call still completes, leaving
only the legacy flag changed. -/
theorem C8_update_self_shadow_map (s : State) (mi : Nat) (m : Material)
    (hm : s.materials[mi]? = some m) :
    (m.use_cast_shadows = none →
      (update_self_shadow_map s mi).materials[mi]? =
        some { m with use_cast_buffer_shadows := m.mmd_material.enabled_self_shadow_map }) ∧
    (∀ b, m.use_cast_shadows = some b →
      (update_self_shadow_map s mi).materials[mi]? =
        some { m with
                use_cast_buffer_shadows := m.mmd_material.enabled_self_shadow_map,
                use_cast_shadows := some m.mmd_material.enabled_self_shadow_map }) := by
  constructor
  · intro hn
    unfold update_self_shadow_map
    rw [updateMaterial_getElem_self hm]
    simp [hn]
  · intro b hb
    unfold update_self_shadow_map
    rw [updateMaterial_getElem_self hm]
    simp [hb]

theorem C8_update_self_shadow_map_witness :
    sampleState.materials[0]? = some sampleMat ∧
    sampleMat.use_cast_shadows = none ∧
    (update_self_shadow_map sampleState 0).materials[0]? =
      some { sampleMat with use_cast_buffer_shadows :=
               sampleMat.mmd_material.enabled_self_shadow_map } :=
  ⟨rfl, rfl, (C8_update_self_shadow_map sampleState 0 sampleMat rfl).1 rfl⟩

theorem from_material_id_scan_some {l : List Material} {x : Int} :
    ∀ {i j : Nat}, from_material_id_scan l x i = some j →
      ∃ m, i ≤ j ∧ l[j - i]? = some m ∧ m.mmd_material.material_id = x := by
  induction l with
  | nil => intro i j h; simp [from_material_id_scan] at h
  | cons m rest ih =>
    intro i j h
    by_cases hid : m.mmd_material.material_id = x
    · simp only [from_material_id_scan, if_pos hid] at h
      cases h
      exact ⟨m, le_refl i, by simp, hid⟩
    · simp only [from_material_id_scan, if_neg hid] at h
      obtain ⟨m2, hij, hget, hx⟩ := ih h
      refine ⟨m2, by omega, ?_, hx⟩
      have hsplit : j - i = (j - (i + 1)) + 1 := by omega
      rw [hsplit]
      simpa using hget

/-- C10: `from_material_id` reads the stored `material_id` field of each
material directly, never through the lazy property: it mutates nothing (the
scene state after the call is the very state passed in, so stored negative
ids stay negative), and a hit is a material whose stored field equals the
requested id. -/
theorem C10_from_material_id (s : State) (x : Int) :
    (from_material_id s x).2 = s ∧
    (∀ j, (from_material_id s x).1 = some j →
      ∃ m, s.materials[j]? = some m ∧ m.mmd_material.material_id = x) ∧
    materialIds (from_material_id s x).2 = materialIds s := by
  refine ⟨rfl, ?_, rfl⟩
  intro j h
  obtain ⟨m, _, hget, hx⟩ := from_material_id_scan_some h
  exact ⟨m, by simpa using hget, hx⟩

theorem C10_from_material_id_witness :
    (from_material_id sampleState 7).2 = sampleState :=
  (C10_from_material_id sampleState 7).1

end MMD

namespace MMD

/-- C7: when no stored image matches the path and the host image load
fails, `__load_image` does not raise: it appends exactly one warning line
`Cannot create a texture for <path>. No such file.` to the log and returns
a freshly stored 1x1 placeholder whose source is FILE and whose filepath
is the requested path. -/
theorem C7_load_image_failure (env : Env) (s : State) (p : String)
    (hWF : WF s) (hfind : findImage env s.images p = none)
    (hload : env.loadable p = false) :
    (load_image env s p).2.log =
      s.log ++ ["Cannot create a texture for " ++ p ++ ". No such file."] ∧
    getImage (load_image env s p).2 (load_image env s p).1 =
      some { name := env.baseName p, source := "FILE", filepath := p,
             use_alpha := true, width := 1, height := 1 } := by
  have hfresh : ∀ e ∈ s.images, e.1 ≠ s.nextImgId :=
    fun e he => Nat.ne_of_lt (hWF.2.1 e he)
  constructor
  · simp [load_image, hfind, hload, loadFailMsg]
  · simp only [load_image, hfind, hload, Bool.false_eq_true, if_false]
    unfold getImage
    exact assocFind_append_fresh hfresh _

theorem C7_load_image_failure_witness :
    WF sampleState ∧
    findImage sampleEnv sampleState.images "a.png" = none ∧
    sampleEnv.loadable "a.png" = false ∧
    (load_image sampleEnv sampleState "a.png").2.log =
      sampleState.log ++ ["Cannot create a texture for " ++ "a.png" ++ ". No such file."] :=
  ⟨by decide, rfl, rfl,
    (C7_load_image_failure sampleEnv sampleState "a.png" (by decide) rfl rfl).1⟩

/-- Shared characterization of the `material_id` getter on a negative
stored id: the assigned value is the scan maximum (accumulator -1) plus
one, stored back into the wrapped material. -/
theorem material_id_neg (s : State) (mi : Nat) (m : Material)
    (hm : s.materials[mi]? = some m) (hneg : m.mmd_material.material_id < 0) :
    (material_id s mi).1 = (materialIds s).foldl max (-1) + 1 ∧
    (material_id s mi).2 = updateMaterial s mi (fun m2 =>
      { m2 with mmd_material := { m2.mmd_material with
          material_id := (materialIds s).foldl max (-1) + 1 } }) := by
  have hM : s.materials.foldl (fun a mat => max a mat.mmd_material.material_id) (-1)
      = (materialIds s).foldl max (-1) := by
    unfold materialIds
    rw [List.foldl_map]
  constructor
  · simp [material_id, hm, hneg, hM]
  · simp [material_id, hm, hneg, hM]

/-- Shared characterization of the `material_id` getter on a non-negative
stored id: pure read. -/
theorem material_id_nonneg (s : State) (mi : Nat) (m : Material)
    (hm : s.materials[mi]? = some m) (hpos : ¬m.mmd_material.material_id < 0) :
    material_id s mi = (m.mmd_material.material_id, s) := by
  simp only [material_id, hm, if_neg hpos]

theorem materialIds_getElem? (s : State) (j : Nat) :
    (materialIds s)[j]? = (s.materials[j]?).map (fun m => m.mmd_material.material_id) := by
  unfold materialIds
  rw [List.getElem?_map]

end MMD

namespace MMD

def negTwoMat : Material :=
  { sampleMat with mmd_material := { sampleMMD with material_id := -2 } }

def negTwoState : State :=
  { sampleState with materials := [negTwoMat] }

/-- C5 counterexample: in a scene whose single material stores id -2 (a
negative, hence unassigned, sentinel), "one greater than the maximum
material_id over all materials" is -1, but reading the property returns 0
(the scan accumulator starts at -1), so the claim as stated is false at
this input. -/
theorem C5_material_id_cex :
    materialIds negTwoState = [-2] ∧
    (material_id negTwoState 0).1 = 0 ∧
    (material_id negTwoState 0).1 ≠ -2 + 1 := by
  refine ⟨rfl, by decide, by decide⟩

/-- C5 (amended): reading `material_id` on a negative stored id assigns
and returns one more than the larger of -1 and the scene maximum: the
value is non-negative, strictly greater than every stored id, and is 0 or
the successor of some stored id; only the wrapped material's id changes,
and a second read returns the same value with no further mutation.  A
non-negative stored id is returned unchanged with no mutation at all. -/
theorem C5_material_id_lazy (s : State) (mi : Nat) (m : Material)
    (hm : s.materials[mi]? = some m) :
    (m.mmd_material.material_id < 0 →
      0 ≤ (material_id s mi).1 ∧
      (∀ (j : Nat) (mj : Material), s.materials[j]? = some mj →
        mj.mmd_material.material_id < (material_id s mi).1) ∧
      ((material_id s mi).1 = 0 ∨
        ∃ mj : Material, mj ∈ s.materials ∧
          mj.mmd_material.material_id + 1 = (material_id s mi).1) ∧
      materialIds (material_id s mi).2 =
        (materialIds s).set mi (material_id s mi).1 ∧
      material_id (material_id s mi).2 mi =
        ((material_id s mi).1, (material_id s mi).2)) ∧
    (0 ≤ m.mmd_material.material_id →
      material_id s mi = (m.mmd_material.material_id, s)) := by
  constructor
  · intro hneg
    obtain ⟨hv, hst⟩ := material_id_neg s mi m hm hneg
    have hMge : (-1 : Int) ≤ (materialIds s).foldl max (-1) :=
      foldl_max_init_le (materialIds s) (-1)
    refine ⟨?_, ?_, ?_, ?_, ?_⟩
    · rw [hv]; omega
    · intro j mj hj
      have hmem : mj.mmd_material.material_id ∈ materialIds s :=
        List.mem_map.mpr ⟨mj, List.mem_iff_getElem?.mpr ⟨j, hj⟩, rfl⟩
      have := foldl_max_mem_le (materialIds s) (-1) _ hmem
      rw [hv]; omega
    · rcases foldl_max_cases (materialIds s) (-1) with hc | hc
      · left
        rw [hv, hc]
        decide
      · right
        rcases List.mem_map.mp hc with ⟨mj, hmj, hid⟩
        exact ⟨mj, hmj, by rw [hid, hv]⟩
    · conv_lhs => rw [hst]
      rw [hv]
      unfold updateMaterial
      rw [hm]
      unfold materialIds setMaterial
      simp only [List.map_set]
    · have hm2 : (material_id s mi).2.materials[mi]? =
          some { m with mmd_material := { m.mmd_material with
            material_id := (materialIds s).foldl max (-1) + 1 } } := by
        rw [hst]
        exact updateMaterial_getElem_self hm _
      have hnn : ¬({ m with mmd_material := { m.mmd_material with
          material_id := (materialIds s).foldl max (-1) + 1 } } : Material).mmd_material.material_id < 0 := by
        show ¬((materialIds s).foldl max (-1) + 1 < 0)
        omega
      rw [material_id_nonneg (material_id s mi).2 mi _ hm2 hnn]
      show ((materialIds s).foldl max (-1) + 1, (material_id s mi).2) = _
      rw [hv]
  · intro hpos
    exact material_id_nonneg s mi m hm (by omega)

theorem C5_material_id_lazy_witness :
    sampleState.materials[0]? = some sampleMat ∧
    sampleMat.mmd_material.material_id < 0 ∧
    0 ≤ (material_id sampleState 0).1 ∧
    material_id (material_id sampleState 0).2 0 =
      ((material_id sampleState 0).1, (material_id sampleState 0).2) := by
  have h := (C5_material_id_lazy sampleState 0 sampleMat rfl).1 (by decide)
  exact ⟨rfl, by decide, h.1, h.2.2.2.2⟩

end MMD

namespace MMD

section IdPreservation

theorem materialIds_create_texture (env : Env) (s : State) (mi : Nat) (p : String) :
    materialIds (create_texture env s mi p) = materialIds s := by
  unfold create_texture
  rw [materialIds_updateSlot, materialIds_load_texture, materialIds_setSlot]

theorem materialIds_create_toon_texture (env : Env) (s : State) (mi : Nat) (p : String) :
    materialIds (create_toon_texture env s mi p) = materialIds s := by
  unfold create_toon_texture
  rw [materialIds_updateTexture]
  split
  · rw [materialIds_updateImage, materialIds_updateTexture, materialIds_updateSlot,
      materialIds_load_texture, materialIds_setSlot]
  · rw [materialIds_updateTexture, materialIds_updateSlot,
      materialIds_load_texture, materialIds_setSlot]

theorem materialIds_create_sphere_texture (env : Env) (s : State) (mi : Nat) (p : String) :
    materialIds (create_sphere_texture env s mi p) = materialIds s := by
  unfold create_sphere_texture
  rw [materialIds_sphere_type]
  split
  · rw [materialIds_updateImage, materialIds_updateTexture, materialIds_updateSlot,
      materialIds_load_texture, materialIds_setSlot]
  · rw [materialIds_updateTexture, materialIds_updateSlot,
      materialIds_load_texture, materialIds_setSlot]

theorem materialIds_remove_texture (s : State) (mi idx : Nat) :
    materialIds (remove_texture s mi idx) = materialIds s := by
  unfold remove_texture
  split
  · rfl
  · split
    · exact materialIds_setSlot s mi idx none
    · dsimp only
      split
      · split
        · rw [materialIds_eraseTexture, materialIds_updateTexture, materialIds_setSlot]
        · split
          · rw [materialIds_eraseImage, materialIds_eraseTexture,
              materialIds_updateTexture, materialIds_setSlot]
          · rw [materialIds_eraseTexture, materialIds_updateTexture, materialIds_setSlot]
      · exact materialIds_setSlot s mi idx none

theorem materialIds_update_toon_texture (env : Env) (s : State) (mi : Nat) :
    materialIds (update_toon_texture env s mi) = materialIds s := by
  unfold update_toon_texture
  split
  · rfl
  · dsimp only
    split
    · exact materialIds_create_toon_texture env s mi _
    · split
      · exact materialIds_create_toon_texture env s mi _
      · exact materialIds_remove_texture s mi TOON_TEX_SLOT

theorem materialIds_update_self_shadow_map (s : State) (mi : Nat) :
    materialIds (update_self_shadow_map s mi) = materialIds s := by
  unfold update_self_shadow_map
  apply materialIds_updateMaterial
  intro m
  cases m.use_cast_shadows <;> rfl

theorem materialIds_update_self_shadow (s : State) (mi : Nat) :
    materialIds (update_self_shadow s mi) = materialIds s := by
  unfold update_self_shadow
  exact materialIds_updateMaterial s mi _ (fun _ => rfl)

end IdPreservation

/-- C6: "at most one material holds a given non-negative id" is preserved
by every operation of the layer: the lazy assignment in the `material_id`
getter yields a value strictly greater than every stored id (so it never
duplicates one), and every other operation leaves the stored id list
untouched. -/
theorem C6_unique_ids_invariant (env : Env) (s : State) (mi : Nat) (p : String) (x : Int) :
    (uniqueIds (materialIds s) → uniqueIds (materialIds (material_id s mi).2)) ∧
    (∀ m : Material, s.materials[mi]? = some m → m.mmd_material.material_id < 0 →
      ∀ (j : Nat) (mj : Material), s.materials[j]? = some mj →
        mj.mmd_material.material_id < (material_id s mi).1) ∧
    materialIds (create_texture env s mi p) = materialIds s ∧
    materialIds (create_sphere_texture env s mi p) = materialIds s ∧
    materialIds (create_toon_texture env s mi p) = materialIds s ∧
    (∀ idx, materialIds (remove_texture s mi idx) = materialIds s) ∧
    materialIds (update_sphere_texture_type s mi) = materialIds s ∧
    materialIds (update_toon_texture env s mi) = materialIds s ∧
    materialIds (remove_sphere_texture s mi) = materialIds s ∧
    materialIds (remove_toon_texture s mi) = materialIds s ∧
    materialIds (update_self_shadow_map s mi) = materialIds s ∧
    materialIds (update_self_shadow s mi) = materialIds s ∧
    materialIds (update_drop_shadow s mi) = materialIds s ∧
    materialIds (from_material_id s x).2 = materialIds s := by
  have hfresh : ∀ m : Material, s.materials[mi]? = some m →
      m.mmd_material.material_id < 0 →
      ∀ (j : Nat) (mj : Material), s.materials[j]? = some mj →
        mj.mmd_material.material_id < (material_id s mi).1 := by
    intro m hm hneg j mj hj
    obtain ⟨hv, _⟩ := material_id_neg s mi m hm hneg
    have hmem : mj.mmd_material.material_id ∈ materialIds s :=
      List.mem_map.mpr ⟨mj, List.mem_iff_getElem?.mpr ⟨j, hj⟩, rfl⟩
    have := foldl_max_mem_le (materialIds s) (-1) _ hmem
    rw [hv]; omega
  refine ⟨?_, hfresh, materialIds_create_texture env s mi p,
    materialIds_create_sphere_texture env s mi p,
    materialIds_create_toon_texture env s mi p,
    (fun idx => materialIds_remove_texture s mi idx),
    materialIds_sphere_type s mi,
    materialIds_update_toon_texture env s mi,
    materialIds_remove_texture s mi SPHERE_TEX_SLOT,
    materialIds_remove_texture s mi TOON_TEX_SLOT,
    materialIds_update_self_shadow_map s mi,
    materialIds_update_self_shadow s mi,
    rfl, rfl⟩
  intro hu
  cases hm : s.materials[mi]? with
  | none =>
    simp only [material_id, hm]
    exact hu
  | some m =>
    by_cases hneg : m.mmd_material.material_id < 0
    · obtain ⟨hv, hst⟩ := material_id_neg s mi m hm hneg
      have hids : materialIds (material_id s mi).2 =
          (materialIds s).set mi ((materialIds s).foldl max (-1) + 1) := by
        rw [hst]
        unfold updateMaterial
        rw [hm]
        unfold materialIds setMaterial
        simp only [List.map_set]
      have hbound : ∀ y ∈ materialIds s, y ≤ (materialIds s).foldl max (-1) :=
        fun y hy => foldl_max_mem_le (materialIds s) (-1) y hy
      intro i j a b hi hj hij ha
      rw [hids, List.getElem?_set] at hi hj
      by_cases him : mi = i
      · rw [if_pos him] at hi
        by_cases hlt : mi < (materialIds s).length
        · rw [if_pos hlt] at hi
          have ha1 : a = (materialIds s).foldl max (-1) + 1 := by
            cases hi; rfl
          have hjm : mi ≠ j := fun hc => hij (him ▸ hc ▸ rfl)
          rw [if_neg hjm] at hj
          have hbm : b ≤ (materialIds s).foldl max (-1) :=
            hbound b (List.mem_iff_getElem?.mpr ⟨j, hj⟩)
          omega
        · rw [if_neg hlt] at hi
          cases hi
      · rw [if_neg him] at hi
        by_cases hjm : mi = j
        · rw [if_pos hjm] at hj
          by_cases hlt : mi < (materialIds s).length
          · rw [if_pos hlt] at hj
            have hb1 : b = (materialIds s).foldl max (-1) + 1 := by
              cases hj; rfl
            have ham : a ≤ (materialIds s).foldl max (-1) :=
              hbound a (List.mem_iff_getElem?.mpr ⟨i, hi⟩)
            omega
          · rw [if_neg hlt] at hj
            cases hj
        · rw [if_neg hjm] at hj
          exact hu i j a b hi hj hij ha
    · have hsame : (material_id s mi).2 = s := by
        rw [material_id_nonneg s mi m hm hneg]
      rw [hsame]
      exact hu

theorem C6_unique_ids_invariant_witness :
    (uniqueIds (materialIds sampleState) →
      uniqueIds (materialIds (material_id sampleState 0).2)) ∧
    materialIds (update_self_shadow_map sampleState 0) = materialIds sampleState :=
  ⟨(C6_unique_ids_invariant sampleEnv sampleState 0 "a.png" 3).1,
   (C6_unique_ids_invariant sampleEnv sampleState 0 "a.png" 3).2.2.2.2.2.2.2.2.2.2.1⟩

end MMD

namespace MMD

theorem load_image_of_found {env : Env} {s : State} {p : String} {e : Nat × Image}
    (h : findImage env s.images p = some e) : load_image env s p = (e.1, s) := by
  unfold load_image
  rw [h]

/-- The texture record `bpy.data.textures.new(name=display_name, type='IMAGE')`
hands back before its image is assigned. -/
def texNew (env : Env) (p : String) : Texture :=
  { name := env.displayName p, ttype := "IMAGE", image := none,
    use_alpha := true, extension := "REPEAT" }

/-- The store state right after `bpy.data.textures.new` inside
`__load_texture`, before `__load_image` runs. -/
def texStateA (env : Env) (s : State) (p : String) : State :=
  { s with textures := s.textures ++ [(s.nextTexId, texNew env p)],
           nextTexId := s.nextTexId + 1 }

theorem load_texture_not_found_eq {env : Env} {s : State} {p : String}
    (hft : findTexture env s.images s.textures p = none) :
    load_texture env s p =
      (s.nextTexId,
        updateTexture (load_image env (texStateA env s p) p).2 s.nextTexId
          (fun t => { t with
            image := some (load_image env (texStateA env s p) p).1 })) := by
  unfold load_texture
  rw [hft]
  rfl

/-- Appending a fresh image-less texture under the fresh key (what
`bpy.data.textures.new` does) keeps the store well-formed. -/
theorem WF_appendTex {s : State} (hWF : WF s) {tex0 : Texture}
    (h0 : tex0.image = none) :
    WF { s with textures := s.textures ++ [(s.nextTexId, tex0)],
                nextTexId := s.nextTexId + 1 } := by
  obtain ⟨h1, h2, h3, h4, h5⟩ := hWF
  refine ⟨?_, h2, ?_, h4, ?_⟩
  · intro e he
    rcases List.mem_append.mp he with hin | hin
    · exact Nat.lt_succ_of_lt (h1 e hin)
    · simp at hin
      rw [hin]
      exact Nat.lt_succ_self _
  · rw [List.map_append, List.nodup_append]
    refine ⟨h3, by simp, ?_⟩
    intro a ha hb
    simp at hb
    rw [hb] at ha
    rcases List.mem_map.mp ha with ⟨e, he, hk⟩
    exact absurd (hk ▸ h1 e he) (lt_irrefl _)
  · intro e he j hj
    rcases List.mem_append.mp he with hin | hin
    · exact h5 e hin j hj
    · simp at hin
      rw [hin] at hj
      simp [h0] at hj

/-- C2: with the store well-formed and the path in resolved form, a second
`__load_image` call with the same path returns the very image (key) the
first call produced and leaves the state untouched; likewise a second
`__load_texture` call returns the very texture of the first call. -/
theorem C2_dedup_idempotent (env : Env) (s : State) (p : String)
    (hWF : WF s) (hp : env.fromUser p = p) :
    load_image env (load_image env s p).2 p =
      ((load_image env s p).1, (load_image env s p).2) ∧
    load_texture env (load_texture env s p).2 p =
      ((load_texture env s p).1, (load_texture env s p).2) := by
  constructor
  · cases hf : findImage env s.images p with
    | some e =>
      have h1 : load_image env s p = (e.1, s) := load_image_of_found hf
      rw [h1]
      exact h1
    | none =>
      rcases load_image_images_cases env s p with heq | ⟨img, hsrc, hfp, hid, himgs⟩
      · rw [heq]
        exact Prod.ext rfl heq
      · have hfind2 : findImage env (load_image env s p).2.images p =
            some ((load_image env s p).1, img) := by
          rw [himgs, findImage_append, hf, Option.none_or, hid]
          simp [findImage, same_image_file, hsrc, hfp, hp]
        rw [load_image_of_found hfind2]
  · cases hft : findTexture env s.images s.textures p with
    | some e =>
      have h1 : load_texture env s p = (e.1, s) := load_texture_images_of_found hft
      rw [h1]
      exact h1
    | none =>
      have hA := load_texture_not_found_eq hft
      have hWFA : WF (texStateA env s p) := WF_appendTex hWF rfl
      have hfst : (load_texture env s p).1 = s.nextTexId := by rw [hA]
      have hBtex : (load_image env (texStateA env s p) p).2.textures =
          (texStateA env s p).textures := load_image_textures env (texStateA env s p) p
      have hCtex : (load_texture env s p).2.textures =
          s.textures ++ [(s.nextTexId, { texNew env p with
            image := some (load_image env (texStateA env s p) p).1 })] := by
        rw [hA]
        have hred : (updateTexture (load_image env (texStateA env s p) p).2 s.nextTexId
            (fun t => { t with
              image := some (load_image env (texStateA env s p) p).1 })).textures =
            ((load_image env (texStateA env s p) p).2.textures).map (fun e =>
              if e.1 = s.nextTexId then
                (e.1, { e.2 with
                  image := some (load_image env (texStateA env s p) p).1 })
              else e) := rfl
        rw [hred, hBtex]
        have h2 : (texStateA env s p).textures =
            s.textures ++ [(s.nextTexId, texNew env p)] := rfl
        rw [h2, List.map_append]
        congr 1
        · exact map_if_eq_of_forall_ne _ (fun e he => Nat.ne_of_lt (hWF.1 e he))
        · simp [texNew]
      have hCimg : (load_texture env s p).2.images =
          (load_image env (texStateA env s p) p).2.images := by
        rw [hA]
        rfl
      have hfind2 : findTexture env (load_texture env s p).2.images
          (load_texture env s p).2.textures p =
          some (s.nextTexId, { texNew env p with
            image := some (load_image env (texStateA env s p) p).1 }) := by
        rw [hCtex, hCimg, findTexture_append]
        have hcong : ∀ e ∈ s.textures,
            texMatch env (load_image env (texStateA env s p) p).2.images e.2 p =
            texMatch env s.images e.2 p := by
          intro e he
          cases hei : e.2.image with
          | none => simp [texMatch, hei]
          | some j =>
            have hv := hWF.2.2.2.2 e he j hei
            obtain ⟨w, hw⟩ := Option.isSome_iff_exists.mp hv
            have hwA : getImage (texStateA env s p) j = some w := hw
            have hw2 := load_image_preserves_getImage env (texStateA env s p) p hwA
            unfold getImage at hw hw2
            simp [texMatch, hei, hw, hw2]
        have hold : findTexture env (load_image env (texStateA env s p) p).2.images
            s.textures p = none := by
          rw [findTexture_congr hcong]
          exact hft
        rw [hold, Option.none_or]
        have htm : texMatch env (load_image env (texStateA env s p) p).2.images
            { texNew env p with
              image := some (load_image env (texStateA env s p) p).1 } p = true := by
          obtain ⟨imgR, hgR, hsR⟩ := load_image_result env (texStateA env s p) p hWFA hp
          unfold getImage at hgR
          simp [texMatch, texNew, hgR, hsR]
        simp [findTexture, htm]
      rw [load_texture_images_of_found hfind2, hfst]

end MMD

namespace MMD

theorem C2_dedup_idempotent_witness :
    WF sampleState ∧ sampleEnv.fromUser "a.png" = "a.png" ∧
    load_image sampleEnv (load_image sampleEnv sampleState "a.png").2 "a.png" =
      ((load_image sampleEnv sampleState "a.png").1,
       (load_image sampleEnv sampleState "a.png").2) ∧
    load_texture sampleEnv (load_texture sampleEnv sampleState "a.png").2 "a.png" =
      ((load_texture sampleEnv sampleState "a.png").1,
       (load_texture sampleEnv sampleState "a.png").2) :=
  ⟨by decide, rfl,
   (C2_dedup_idempotent sampleEnv sampleState "a.png" (by decide) rfl).1,
   (C2_dedup_idempotent sampleEnv sampleState "a.png" (by decide) rfl).2⟩

theorem getTexture_sphere_type (s : State) (mi tid : Nat) :
    getTexture (update_sphere_texture_type s mi) tid = getTexture s tid := by
  unfold getTexture
  rw [sphere_type_textures]

theorem getImage_sphere_type (s : State) (mi iid : Nat) :
    getImage (update_sphere_texture_type s mi) iid = getImage s iid := by
  unfold getImage
  rw [sphere_type_images]

/-- C9: when `create_toon_texture` or `create_sphere_texture` dedups onto
a texture that already exists in the store, it mutates that shared texture
datablock in place — `use_alpha` cleared on it and on its image, and (toon
case) extension set to EXTEND — so every other material's slot that
references the same texture keeps its reference and observes the change. -/
theorem C9_shared_texture_in_place (env : Env) (s : State) (mi : Nat) (p : String)
    (tid : Nat) (tex : Texture) (hWF : WF s)
    (hfound : findTexture env s.images s.textures p = some (tid, tex)) :
    (∀ (mj k : Nat), mj ≠ mi → slotTexture s mj k = some tid →
      slotTexture (create_toon_texture env s mi p) mj k = some tid) ∧
    getTexture (create_toon_texture env s mi p) tid =
      some { tex with use_alpha := false, extension := "EXTEND" } ∧
    (∀ (j : Nat) (w : Image), tex.image = some j → getImage s j = some w →
      getImage (create_toon_texture env s mi p) j = some { w with use_alpha := false }) ∧
    (∀ (mj k : Nat), mj ≠ mi → slotTexture s mj k = some tid →
      slotTexture (create_sphere_texture env s mi p) mj k = some tid) ∧
    getTexture (create_sphere_texture env s mi p) tid =
      some { tex with use_alpha := false } ∧
    (∀ (j : Nat) (w : Image), tex.image = some j → getImage s j = some w →
      getImage (create_sphere_texture env s mi p) j = some { w with use_alpha := false }) := by
  have hfs := findTexture_some hfound
  have htex0 : getTexture s tid = some tex := by
    unfold getTexture
    exact assocFind_nodup_mem hWF.2.2.1 hfs.1
  obtain ⟨htt, j0, w0, himg, hw0, hs0⟩ := texMatch_spec hfs.2
  unfold create_toon_texture create_sphere_texture
  dsimp only
  set S1t := setSlot s mi TOON_TEX_SLOT
    (some { newSlot with texture_coords := "NORMAL", blend_type := "MULTIPLY" }) with hS1t
  set S1s := setSlot s mi SPHERE_TEX_SLOT
    (some { newSlot with texture_coords := "NORMAL" }) with hS1s
  have hfoundt : findTexture env S1t.images S1t.textures p = some (tid, tex) := by
    rw [hS1t, images_setSlot, textures_setSlot]
    exact hfound
  have hfounds : findTexture env S1s.images S1s.textures p = some (tid, tex) := by
    rw [hS1s, images_setSlot, textures_setSlot]
    exact hfound
  rw [load_texture_images_of_found hfoundt, load_texture_images_of_found hfounds]
  dsimp only
  set S3t := updateSlot S1t mi TOON_TEX_SLOT (fun sl => { sl with texture := some tid }) with hS3t
  set S3s := updateSlot S1s mi SPHERE_TEX_SLOT (fun sl => { sl with texture := some tid }) with hS3s
  set S4t := updateTexture S3t tid (fun t => { t with use_alpha := false }) with hS4t
  set S4s := updateTexture S3s tid (fun t => { t with use_alpha := false }) with hS4s
  have hT3t : getTexture S3t tid = some tex := by
    rw [hS3t, getTexture_updateSlot, hS1t, getTexture_setSlot]
    exact htex0
  have hT3s : getTexture S3s tid = some tex := by
    rw [hS3s, getTexture_updateSlot, hS1s, getTexture_setSlot]
    exact htex0
  have hT4t : getTexture S4t tid = some { tex with use_alpha := false } := by
    rw [hS4t, getTexture_updateTexture_self, hT3t]
    rfl
  have hT4s : getTexture S4s tid = some { tex with use_alpha := false } := by
    rw [hS4s, getTexture_updateTexture_self, hT3s]
    rfl
  have hbindt : (getTexture S4t tid).bind (fun t => t.image) = some j0 := by
    rw [hT4t]
    simpa using himg
  have hbinds : (getTexture S4s tid).bind (fun t => t.image) = some j0 := by
    rw [hT4s]
    simpa using himg
  rw [hbindt, hbinds]
  dsimp only
  set S5t := updateImage S4t j0 (fun i => { i with use_alpha := false }) with hS5t
  set S5s := updateImage S4s j0 (fun i => { i with use_alpha := false }) with hS5s
  refine ⟨?_, ?_, ?_, ?_, ?_, ?_⟩
  · intro mj k hne href
    rw [slotTexture_updateTexture, hS5t, slotTexture_updateImage, hS4t,
      slotTexture_updateTexture, hS3t,
      slotTexture_updateSlot_other S1t _ _ _ (fun hc => hne hc.1), hS1t,
      slotTexture_setSlot_other s _ _ _ (fun hc => hne hc.1)]
    exact href
  · rw [getTexture_updateTexture_self, hS5t, getTexture_updateImage, hT4t]
    rfl
  · intro j w hj hw
    rw [himg] at hj
    cases hj
    rw [getImage_updateTexture, hS5t, getImage_updateImage_self, hS4t,
      getImage_updateTexture, hS3t, getImage_updateSlot, hS1t, getImage_setSlot, hw]
    rfl
  · intro mj k hne href
    rw [sphere_type_slotTexture_other _ _ hne, hS5s, slotTexture_updateImage, hS4s,
      slotTexture_updateTexture, hS3s,
      slotTexture_updateSlot_other S1s _ _ _ (fun hc => hne hc.1), hS1s,
      slotTexture_setSlot_other s _ _ _ (fun hc => hne hc.1)]
    exact href
  · rw [getTexture_sphere_type, hS5s, getTexture_updateImage, hT4s]
  · intro j w hj hw
    rw [himg] at hj
    cases hj
    rw [getImage_sphere_type, hS5s, getImage_updateImage_self, hS4s,
      getImage_updateTexture, hS3s, getImage_updateSlot, hS1s, getImage_setSlot, hw]
    rfl

end MMD

namespace MMD

/-- Behaviour of `remove_texture` on a populated slot, for any scene: the
slot is cleared first; the texture is removed exactly when no other slot
references it, and its image is then removed exactly when no other texture
references it (the texture-then-image order makes the image count correct);
when another slot still references the texture, nothing is removed. -/
theorem remove_texture_spec (s₀ : State) (mi : Nat)
    (tid iid : Nat) (tex : Texture) (img : Image)
    (hsl : slotTexture s₀ mi BASE_TEX_SLOT = some tid)
    (htex : getTexture s₀ tid = some tex)
    (hti : tex.image = some iid)
    (himg : getImage s₀ iid = some img) :
    ((∀ mj k, ¬(mj = mi ∧ k = BASE_TEX_SLOT) → slotTexture s₀ mj k ≠ some tid) →
      getTexture (remove_texture s₀ mi BASE_TEX_SLOT) tid = none ∧
      ((∀ e ∈ s₀.textures, e.1 ≠ tid → e.2.image ≠ some iid) →
        getImage (remove_texture s₀ mi BASE_TEX_SLOT) iid = none)) ∧
    ((∃ mj k, ¬(mj = mi ∧ k = BASE_TEX_SLOT) ∧ slotTexture s₀ mj k = some tid) →
      getTexture (remove_texture s₀ mi BASE_TEX_SLOT) tid = some tex ∧
      getImage (remove_texture s₀ mi BASE_TEX_SLOT) iid = some img) := by
  obtain ⟨sl, hslot, hsltex⟩ : ∃ sl, getSlot s₀ mi BASE_TEX_SLOT = some sl ∧
      sl.texture = some tid := by
    unfold slotTexture at hsl
    cases hgs : getSlot s₀ mi BASE_TEX_SLOT with
    | none => rw [hgs] at hsl; simp at hsl
    | some sl2 =>
      rw [hgs] at hsl
      simp only [Option.some_bind] at hsl
      exact ⟨sl2, rfl, hsl⟩
  have hT1 : getTexture (setSlot s₀ mi BASE_TEX_SLOT none) tid = some tex := by
    rw [getTexture_setSlot]
    exact htex
  have hbind : (getTexture (setSlot s₀ mi BASE_TEX_SLOT none) tid).bind
      (fun t => t.image) = some iid := by
    rw [hT1]
    simpa using hti
  have hgetE : getTexture (eraseTexture (updateTexture (setSlot s₀ mi BASE_TEX_SLOT none)
      tid (fun t => { t with image := none })) tid) tid = none := by
    rw [eraseTexture_updateTexture]
    exact assocFind_filter_ne _ _
  have hEmem : ∀ e : Nat × Texture,
      e ∈ (eraseTexture (updateTexture (setSlot s₀ mi BASE_TEX_SLOT none) tid
        (fun t => { t with image := none })) tid).textures →
      e ∈ s₀.textures ∧ e.1 ≠ tid := by
    intro e he
    rw [eraseTexture_updateTexture] at he
    obtain ⟨hmm, hne⟩ := List.mem_filter.mp he
    have hneq : e.1 ≠ tid := by simpa using hne
    rw [textures_setSlot] at hmm
    exact ⟨hmm, hneq⟩
  constructor
  · intro hno
    have husers : texUsers (setSlot s₀ mi BASE_TEX_SLOT none) tid = 0 := by
      rw [texUsers_eq_zero_iff]
      intro mj k
      by_cases hc : mj = mi ∧ k = BASE_TEX_SLOT
      · obtain ⟨h1, h2⟩ := hc
        subst h1
        subst h2
        rw [slotTexture_setSlot_none_self]
        simp
      · rw [slotTexture_setSlot_other s₀ _ _ _ hc]
        exact hno mj k hc
    constructor
    · unfold remove_texture
      rw [hslot]
      dsimp only
      rw [hsltex]
      dsimp only
      rw [if_pos (by omega), hbind]
      dsimp only
      split
      · exact hgetE
      · exact hgetE
    · intro hnoimg
      have himgusers : imgUsers (eraseTexture (updateTexture
          (setSlot s₀ mi BASE_TEX_SLOT none) tid (fun t => { t with image := none }))
          tid) iid = 0 := by
        rw [imgUsers_eq_zero_iff]
        intro e he
        exact hnoimg e (hEmem e he).1 (hEmem e he).2
      unfold remove_texture
      rw [hslot]
      dsimp only
      rw [hsltex]
      dsimp only
      rw [if_pos (by omega), hbind]
      dsimp only
      rw [if_pos (by omega)]
      exact assocFind_filter_ne _ _
  · rintro ⟨mj, k, hc, href⟩
    have husers : ¬texUsers (setSlot s₀ mi BASE_TEX_SLOT none) tid < 1 := by
      intro hlt
      have h0 : texUsers (setSlot s₀ mi BASE_TEX_SLOT none) tid = 0 := by omega
      have := (texUsers_eq_zero_iff _ _).mp h0 mj k
      rw [slotTexture_setSlot_other s₀ _ _ _ hc] at this
      exact this href
    unfold remove_texture
    rw [hslot]
    dsimp only
    rw [hsltex]
    dsimp only
    rw [if_neg husers]
    constructor
    · rw [getTexture_setSlot]
      exact htex
    · rw [getImage_setSlot]
      exact himg

/-- C1: after `create_texture(path)` and `remove_texture(BASE)` on any
material: if no other slot anywhere references the slot's texture, the
texture is deleted, and — checking the image's reference count only after
the texture is gone — its image is deleted too when no other texture
references it; if another slot anywhere still references the texture,
neither the texture nor the image is removed. -/
theorem C1_refcounted_cleanup (env : Env) (s : State) (mi : Nat) (p : String)
    (tid iid : Nat) (tex : Texture) (img : Image)
    (hsl : slotTexture (create_texture env s mi p) mi BASE_TEX_SLOT = some tid)
    (htex : getTexture (create_texture env s mi p) tid = some tex)
    (hti : tex.image = some iid)
    (himg : getImage (create_texture env s mi p) iid = some img) :
    ((∀ mj k, ¬(mj = mi ∧ k = BASE_TEX_SLOT) →
        slotTexture (create_texture env s mi p) mj k ≠ some tid) →
      getTexture (remove_texture (create_texture env s mi p) mi BASE_TEX_SLOT) tid = none ∧
      ((∀ e ∈ (create_texture env s mi p).textures, e.1 ≠ tid → e.2.image ≠ some iid) →
        getImage (remove_texture (create_texture env s mi p) mi BASE_TEX_SLOT) iid = none)) ∧
    ((∃ mj k, ¬(mj = mi ∧ k = BASE_TEX_SLOT) ∧
        slotTexture (create_texture env s mi p) mj k = some tid) →
      getTexture (remove_texture (create_texture env s mi p) mi BASE_TEX_SLOT) tid = some tex ∧
      getImage (remove_texture (create_texture env s mi p) mi BASE_TEX_SLOT) iid = some img) :=
  remove_texture_spec (create_texture env s mi p) mi tid iid tex img hsl htex hti himg

end MMD

namespace MMD

def c1tex : Texture :=
  { name := "a.png", ttype := "IMAGE", image := some 0,
    use_alpha := true, extension := "REPEAT" }

def c1img : Image :=
  { name := "a.png", source := "FILE", filepath := "a.png",
    use_alpha := true, width := 1, height := 1 }

def c1slot : TextureSlot :=
  { use := true, use_map_alpha := true, texture_coords := "UV",
    blend_type := "MULTIPLY", texture := some 0 }

def c1mat : Material :=
  { mmd_material := sampleMMD,
    texture_slots := [some c1slot, none, none],
    use_cast_buffer_shadows := false, use_cast_shadows := none,
    use_shadows := false, use_transparent_shadows := false }

theorem C1_refcounted_cleanup_witness :
    slotTexture (create_texture sampleEnv sampleState 0 "a.png") 0 BASE_TEX_SLOT = some 0 ∧
    getTexture (create_texture sampleEnv sampleState 0 "a.png") 0 = some c1tex ∧
    c1tex.image = some 0 ∧
    getImage (create_texture sampleEnv sampleState 0 "a.png") 0 = some c1img ∧
    getTexture (remove_texture (create_texture sampleEnv sampleState 0 "a.png")
      0 BASE_TEX_SLOT) 0 = none ∧
    getImage (remove_texture (create_texture sampleEnv sampleState 0 "a.png")
      0 BASE_TEX_SLOT) 0 = none := by
  have hmats : (create_texture sampleEnv sampleState 0 "a.png").materials = [c1mat] := by
    decide
  have hnone : ∀ mj k, ¬(mj = 0 ∧ k = BASE_TEX_SLOT) →
      slotTexture (create_texture sampleEnv sampleState 0 "a.png") mj k ≠ some 0 := by
    intro mj k hc
    unfold slotTexture getSlot slotGet
    rw [hmats]
    cases mj with
    | succ n =>
      rw [List.getElem?_cons_succ]
      simp
    | zero =>
      simp only [List.getElem?_cons_zero, Option.some_bind]
      cases k with
      | zero => exact absurd ⟨rfl, rfl⟩ hc
      | succ n =>
        have hsl3 : c1mat.texture_slots = [some c1slot, none, none] := rfl
        rw [hsl3, List.getElem?_cons_succ]
        cases n with
        | zero => simp
        | succ q =>
          rw [List.getElem?_cons_succ]
          cases q with
          | zero => simp
          | succ w => simp
  have h := C1_refcounted_cleanup sampleEnv sampleState 0 "a.png" 0 0 c1tex c1img
    (by decide) (by decide) rfl (by decide)
  have hA := h.1 hnone
  exact ⟨by decide, by decide, rfl, by decide, hA.1, hA.2 (by decide)⟩

def c9img : Image :=
  { name := "a.png", source := "FILE", filepath := "a.png",
    use_alpha := true, width := 4, height := 4 }

def c9tex : Texture :=
  { name := "a", ttype := "IMAGE", image := some 0,
    use_alpha := true, extension := "REPEAT" }

def c9slot : TextureSlot :=
  { use := true, use_map_alpha := false, texture_coords := "UV",
    blend_type := "MULTIPLY", texture := some 0 }

def c9matB : Material :=
  { sampleMat with texture_slots := [some c9slot, none, none] }

def c9state : State :=
  { materials := [sampleMat, c9matB], textures := [(0, c9tex)],
    images := [(0, c9img)], nextTexId := 1, nextImgId := 1, log := [] }

theorem C9_shared_texture_in_place_witness :
    WF c9state ∧
    findTexture sampleEnv c9state.images c9state.textures "a.png" = some (0, c9tex) ∧
    slotTexture c9state 1 0 = some 0 ∧
    slotTexture (create_toon_texture sampleEnv c9state 0 "a.png") 1 0 = some 0 ∧
    getTexture (create_toon_texture sampleEnv c9state 0 "a.png") 0 =
      some { c9tex with use_alpha := false, extension := "EXTEND" } ∧
    getImage (create_toon_texture sampleEnv c9state 0 "a.png") 0 =
      some { c9img with use_alpha := false } := by
  have h := C9_shared_texture_in_place sampleEnv c9state 0 "a.png" 0 c9tex
    (by decide) (by decide)
  exact ⟨by decide, by decide, by decide,
    h.1 1 0 (by decide) (by decide), h.2.1, h.2.2.1 0 c9img rfl (by decide)⟩

end MMD
